import Mathlib

/-!
# Update orchestration of the update manager

A shallow embedding of `updatem/orchestration/update_operation.go` (the update
operation record, its constructor `newUpdateOperation`, `updateStatus` and
`generatePhaseChannels`) and of `mqtt/owner_consent_client.go` (the owner
consent client), together with the parts of the orchestrator that the
repository only exercises through `update_orchestrator_test.go`.

Go maps are association lists with distinct keys, Go buffered channels of
`bool` are a capacity and a queue, a Go `(value, error)` result is an `Except`
whose error is the text of the Go error.
-/

namespace Kanto

/-! ## Go maps -/

/-- A Go map, as the list of its entries. The nil map and the empty map are both the empty list:
indexing and ranging treat them alike. -/
abbrev GoMap (κ ν : Type) := List (κ × ν)

namespace GoMap

variable {κ ν : Type}

/-- The comma-ok index expression `v, ok := m[k]`: `none` stands for `ok == false`. -/
def lookup [DecidableEq κ] : GoMap κ ν → κ → Option ν
  | [], _ => none
  | (k, v) :: m, x => if x = k then some v else lookup m x

/-- The assignment `m[k] = v`: an existing entry for `k` is overwritten, otherwise one is added. -/
def insert [DecidableEq κ] : GoMap κ ν → κ → ν → GoMap κ ν
  | [], k, v => [(k, v)]
  | (k', v') :: m, k, v => if k = k' then (k, v) :: m else (k', v') :: insert m k v

/-- The keys of the map. -/
def keys (m : GoMap κ ν) : List κ := m.map Prod.fst

/-- The builtin `len(m)`. -/
def len (m : GoMap κ ν) : Nat := m.length

end GoMap

/-! ## Go channels of `bool` -/

/-- A channel made by `make(chan bool, cap)`: its buffer capacity and the values buffered in it,
oldest first. -/
structure Chan where
  cap : Nat
  buf : List Bool
  deriving DecidableEq, Repr

/-- The builtin `make(chan bool, n)`: an empty channel of capacity `n`. -/
def make (n : Nat) : Chan := { cap := n, buf := [] }

/-- A send that has no receiver waiting: the value is buffered when the buffer has room
(`true`), and cannot proceed otherwise (`false`, the channel is unchanged). -/
def Chan.trySend (c : Chan) (b : Bool) : Chan × Bool :=
  if c.buf.length < c.cap then ({ c with buf := c.buf ++ [b] }, true) else (c, false)

/-- A send in a `select` with a `default` branch: it proceeds when a goroutine is blocked
receiving from the channel (`receiving`), which takes the value, or else when the buffer has
room; otherwise the `default` branch runs and the value is discarded. The result is the channel
afterwards and whether the value was sent. -/
def Chan.sendOrDiscard (c : Chan) (receiving : Bool) (b : Bool) : Chan × Bool :=
  if receiving then (c, true) else Chan.trySend c b

/-! ## Data model (package `api/types`, not among the sources) -/

/-- Modelled from the spec: `types.StatusType`, declared in `api/types`, which is not among the
sources. The constructors are the statuses of §3 in the order in which §3 lists them. -/
inductive StatusType where
  | StatusIdentifying
  | StatusIdentified
  | StatusIdentificationFailed
  | StatusRunning
  | StatusDownloading
  | StatusDownloaded
  | StatusUpdating
  | StatusUpdated
  | StatusActivating
  | StatusActivated
  | StatusCompleted
  | StatusIncomplete
  | StatusSuperSeded
  | BaselineStatusCleanupSuccess
  | BaselineStatusCleanupFailure
  deriving DecidableEq, Repr

open StatusType

/-- Modelled from the spec: the position of a status in the StatusType order of §3
("a total order on StatusType ... represent it as an integer rank", §9). -/
def StatusType.rank : StatusType → Nat
  | StatusIdentifying => 0
  | StatusIdentified => 1
  | StatusIdentificationFailed => 2
  | StatusRunning => 3
  | StatusDownloading => 4
  | StatusDownloaded => 5
  | StatusUpdating => 6
  | StatusUpdated => 7
  | StatusActivating => 8
  | StatusActivated => 9
  | StatusCompleted => 10
  | StatusIncomplete => 11
  | StatusSuperSeded => 12
  | BaselineStatusCleanupSuccess => 13
  | BaselineStatusCleanupFailure => 14

/-- Modelled from the spec: the terminal failure statuses of §3, `Incomplete` and `SuperSeded`. -/
def StatusType.isTerminalFailure : StatusType → Bool
  | StatusIncomplete => true
  | StatusSuperSeded => true
  | _ => false

/-- Modelled from the spec: the action types of §3. -/
inductive ActionType where
  | add
  | update
  | remove
  | restore
  | reboot
  deriving DecidableEq, Repr

/-- Modelled from the spec: `types.Action` of `api/types`, with the fields of §3. -/
structure Action where
  component : String
  version : String
  actionType : ActionType
  status : String
  message : String
  progress : Nat
  deriving DecidableEq, Repr

/-- Modelled from the spec: a target component of a domain, with its version (§3). -/
structure Component where
  ID : String
  Version : String
  deriving DecidableEq, Repr

/-- Modelled from the spec: `types.Domain` of `api/types`: a target domain listing its target
components (§3). -/
structure Domain where
  ID : String
  Components : List Component
  deriving DecidableEq, Repr

/-- Modelled from the spec: `types.DesiredState` of `api/types`: a manifest of target domains
(§3). The test builds it as `types.DesiredState{Domains: []*types.Domain{}}`. -/
structure DesiredState where
  Domains : List Domain
  deriving DecidableEq, Repr

/-- Modelled from the spec: `DesiredState.SplitPerDomains` of `api/types` (§4.1): one sub-manifest
per domain name; a domain entry is emitted iff the input contains at least one component
targeted at that domain, and the order within each sub-manifest follows the input order. -/
def DesiredState.SplitPerDomains (desiredState : DesiredState) : GoMap String DesiredState :=
  desiredState.Domains.foldl
    (fun split domain =>
      if domain.Components = [] then split
      else
        match GoMap.lookup split domain.ID with
        | none => GoMap.insert split domain.ID { Domains := [domain] }
        | some sub => GoMap.insert split domain.ID { Domains := sub.Domains ++ [domain] })
    []

/-- An `api.UpdateManager` interface value (a domain agent), known by its identity: the
constructor uses agents only as map keys. -/
structure UpdateManager where
  id : Nat
  deriving DecidableEq, Repr

/-- An `api.DesiredStateFeedbackHandler` interface value, known by its identity: the
constructor only stores it. -/
structure DesiredStateFeedbackHandler where
  id : Nat
  deriving DecidableEq, Repr

/-- Modelled from the spec: the type `phase`, declared in a file of the package that is not
among the sources: the ordered enumeration of §3. -/
inductive phase where
  | Identification
  | Download
  | Update
  | Activation
  | Cleanup
  deriving DecidableEq, Repr

/-- Modelled from the spec: the package variable `orderedPhases`, declared in a file that is not
among the sources: "Identification, Download, Update, Activation, Cleanup" (§3). -/
def orderedPhases : List phase :=
  [phase.Identification, phase.Download, phase.Update, phase.Activation, phase.Cleanup]

/-! ## `update_operation.go` -/

/-- The struct `updateOperation`. `statusLock` guards `status` and has no state of its own in a
sequential reading. A field that a composite literal leaves out holds its zero value: `none`
for a status that was never set and for a nil channel. `ownerConsented` is not declared in
`update_operation.go`: it is the field that the struct literal of `TestHandleOwnerConsent` sets
and that the consent handler sends on; the literal of `newUpdateOperation` does not name it. -/
structure updateOperation where
  activityID : String
  status : StatusType
  delayedStatus : Option StatusType
  domains : GoMap String StatusType
  actions : GoMap String (GoMap String Action)
  desiredState : DesiredState
  statesPerDomain : GoMap UpdateManager DesiredState
  phaseChannels : GoMap phase Chan
  errChan : Option Chan
  ownerConsented : Option Chan
  errMsg : String
  rebootRequired : Bool
  desiredStateCallback : Option DesiredStateFeedbackHandler
  deriving DecidableEq, Repr

/-- The function `generatePhaseChannels`: ranges over `orderedPhases` and maps every phase to a
fresh `make(chan bool, 1)`. -/
def generatePhaseChannels : GoMap phase Chan :=
  orderedPhases.foldl (fun phaseChannels p => GoMap.insert phaseChannels p (make 1)) []

/-- The body of the `for ... range` of `newUpdateOperation` for one entry of the split, on the
two maps `statesPerDomain` and `domainStatuses`. -/
def rangeBody (domainAgents : GoMap String UpdateManager)
    (maps : GoMap UpdateManager DesiredState × GoMap String StatusType)
    (entry : String × DesiredState) :
    GoMap UpdateManager DesiredState × GoMap String StatusType :=
  match GoMap.lookup domainAgents entry.1 with
  | none => maps
  | some updateManagerForDomain =>
    (GoMap.insert maps.1 updateManagerForDomain entry.2,
     GoMap.insert maps.2 entry.1 StatusIdentifying)

/-- The text of the error of `newUpdateOperation`. -/
def noSupportedDomain : String :=
  "the desired state manifest does not contain any supported domain"

/-- The function `newUpdateOperation`, with the sequence `order` in which the `range` visits the
entries of `desiredState.SplitPerDomains()` made explicit (Go leaves the order of a map range
unspecified). `desiredState` is a manifest, not the nil pointer. -/
def newUpdateOperationIn (order : List (String × DesiredState))
    (domainAgents : GoMap String UpdateManager) (activityID : String)
    (desiredState : DesiredState) (desiredStateCallback : Option DesiredStateFeedbackHandler) :
    Except String updateOperation :=
  let maps := order.foldl (rangeBody domainAgents) ([], [])
  if GoMap.len maps.1 = 0 then
    Except.error noSupportedDomain
  else
    Except.ok
      { activityID := activityID
        status := StatusIdentifying
        delayedStatus := none
        domains := maps.2
        actions := []
        desiredState := desiredState
        statesPerDomain := maps.1
        phaseChannels := generatePhaseChannels
        errChan := some (make 1)
        ownerConsented := none
        errMsg := ""
        rebootRequired := false
        desiredStateCallback := desiredStateCallback }

/-- The function `newUpdateOperation`, ranging over the split in the order of its entries. -/
def newUpdateOperation (domainAgents : GoMap String UpdateManager) (activityID : String)
    (desiredState : DesiredState) (desiredStateCallback : Option DesiredStateFeedbackHandler) :
    Except String updateOperation :=
  newUpdateOperationIn desiredState.SplitPerDomains domainAgents activityID desiredState
    desiredStateCallback

/-- The method `updateOperation.updateStatus`. -/
def updateOperation.updateStatus (operation : updateOperation) (status : StatusType) :
    updateOperation :=
  { operation with status := status }

/-! ## The orchestrator (`update_orchestrator.go`, not among the sources) -/

/-- The arguments of one call of `HandleDesiredStateFeedbackEvent` on a feedback handler, as
`update_orchestrator_test.go` passes them: domain, activity ID, baseline, status, message and
actions. For `actions`, `none` is the nil slice and `some []` the empty slice
`[]*types.Action{}`. -/
structure FeedbackEvent where
  domain : String
  activityID : String
  baseline : String
  status : StatusType
  message : String
  actions : Option (List Action)
  deriving DecidableEq, Repr

/-- The one call that `TestUpdOrchApply/test_empty_domainAgents_err_not_nil` expects on the
callback (`update_orchestrator_test.go`, line 84). -/
def expectedEmptyDomainAgentsFeedback : FeedbackEvent :=
  { domain := "device"
    activityID := ""
    baseline := ""
    status := StatusIncomplete
    message := "the desired state manifest does not contain any supported domain"
    actions := some [] }

/-- Modelled from the spec: `updateOrchestrator.Apply` of `update_orchestrator.go`, which is not
among the sources, on an orchestrator with no active operation (§4.7): "Constructs the
UpdateOperation; on construction error emits a single terminal feedback and returns false."
That feedback is the one of §8, scenario 2: domain "device", the activity ID passed to `Apply`,
an empty baseline (§4.6), status Incomplete, the text of the construction error as message and
an empty action list. The phase loop that follows a successful construction is the parameter `phaseLoop`. The result
is the returned boolean and the calls made on the callback, in order. -/
def Apply (phaseLoop : updateOperation → Bool × List FeedbackEvent)
    (domainAgents : GoMap String UpdateManager) (activityID : String)
    (desiredState : DesiredState) (desiredStateCallback : Option DesiredStateFeedbackHandler) :
    Bool × List FeedbackEvent :=
  match newUpdateOperation domainAgents activityID desiredState desiredStateCallback with
  | Except.error err =>
    (false,
      [{ domain := "device"
         activityID := activityID
         baseline := ""
         status := StatusIncomplete
         message := err
         actions := some [] }])
  | Except.ok operation => phaseLoop operation

/-- Modelled from the spec: the status of an owner consent feedback, declared in `api/types`:
`types.StatusApproved` and `types.StatusDenied`, the two that the test sends, and any other
value of the type, such as the one of a feedback whose `Status` was never set. -/
inductive ConsentStatusType where
  | StatusApproved
  | StatusDenied
  | other (value : String)
  deriving DecidableEq, Repr

/-- Modelled from the spec: `types.OwnerConsentFeedback` of `api/types`, built by the test as
`types.OwnerConsentFeedback{Status: ...}`. -/
structure OwnerConsentFeedback where
  Status : ConsentStatusType
  deriving DecidableEq, Repr

/-- The struct `updateOrchestrator` as the struct literal of `TestHandleOwnerConsent` builds it:
the active operation (`nil` when there is none). Its configuration and timeouts, which the
other tests set, play no part in the consent handler. -/
structure updateOrchestrator where
  operation : Option updateOperation
  deriving DecidableEq, Repr

/-- Modelled from the spec: `updateOrchestrator.HandleOwnerConsentFeedback` of
`update_orchestrator.go`, which is not among the sources (§4.4): "Drops the event if activityID
does not match the active operation (no throw; logged). Otherwise sends the boolean
approved = (feedback.Status == Approved) on ownerConsented. Non-blocking send (buffered slot);
a duplicate is discarded." `receiving` tells whether a goroutine is blocked receiving from
`operation.ownerConsented` when the handler runs, as the `select` of the test is. A send on a
nil channel never proceeds and is discarded like a duplicate. The result is the orchestrator
afterwards and the booleans that the call has sent on `operation.ownerConsented`, in order. -/
def HandleOwnerConsentFeedback (receiving : Bool) (orchestrator : updateOrchestrator)
    (activityID : String) (_timestamp : Int) (feedback : OwnerConsentFeedback) :
    updateOrchestrator × List Bool :=
  match orchestrator.operation with
  | none => (orchestrator, [])
  | some operation =>
    if operation.activityID = activityID then
      let approved := decide (feedback.Status = ConsentStatusType.StatusApproved)
      match operation.ownerConsented with
      | none => (orchestrator, [])
      | some c =>
        let sent := Chan.sendOrDiscard c receiving approved
        ({ orchestrator with
            operation := some { operation with ownerConsented := some sent.1 } },
          if sent.2 then [approved] else [])
    else (orchestrator, [])

/-! ## Sample inputs -/

/-- A manifest with the two domains "containers" and "firmware". -/
def sampleDesiredState : DesiredState :=
  { Domains :=
      [{ ID := "containers", Components := [{ ID := "influxdb", Version := "2.7" }] },
       { ID := "firmware", Components := [{ ID := "bootloader", Version := "1.0" }] }] }

/-- A registry with an agent for "containers" and one for "safety-app", and none for
"firmware". -/
def sampleAgents : GoMap String UpdateManager :=
  [("containers", { id := 1 }), ("safety-app", { id := 2 })]

/-- An operation of activity "A1" in progress, its `ownerConsented` being an empty buffered
slot. -/
def sampleOperation : updateOperation :=
  { activityID := "A1"
    status := StatusIdentified
    delayedStatus := none
    domains := [("containers", StatusIdentified)]
    actions := []
    desiredState := sampleDesiredState
    statesPerDomain := []
    phaseChannels := generatePhaseChannels
    errChan := some (make 1)
    ownerConsented := some (make 1)
    errMsg := ""
    rebootRequired := false
    desiredStateCallback := none }

/-- The operation that `newUpdateOperation` builds from the sample registry and the sample
manifest for activity "A1". -/
def sampleConstructed : updateOperation :=
  { activityID := "A1"
    status := StatusIdentifying
    delayedStatus := none
    domains := [("containers", StatusIdentifying)]
    actions := []
    desiredState := sampleDesiredState
    statesPerDomain :=
      [({ id := 1 },
        { Domains :=
            [{ ID := "containers", Components := [{ ID := "influxdb", Version := "2.7" }] }] })]
    phaseChannels := generatePhaseChannels
    errChan := some (make 1)
    ownerConsented := none
    errMsg := ""
    rebootRequired := false
    desiredStateCallback := none }

/-- The sample operation with the `ownerConsented` of `TestHandleOwnerConsent`, the unbuffered
`make(chan bool)`. -/
def unbufferedConsentOperation : updateOperation :=
  { sampleOperation with ownerConsented := some (make 0) }

/-- The sample operation whose `ownerConsented` slot already holds an approval that nobody has
received yet. -/
def pendingConsentOperation : updateOperation :=
  { sampleOperation with ownerConsented := some { cap := 1, buf := [true] } }

/-- The sample operation once it has reached `StatusCompleted`. -/
def completedOperation : updateOperation :=
  { sampleOperation with status := StatusCompleted }

/-- A phase loop that emits nothing and reports success. -/
def idlePhaseLoop : updateOperation → Bool × List FeedbackEvent :=
  fun _ => (true, [])

/-! ## Go errors -/

/-- A Go `error` value: one made by `fmt.Errorf` without `%w` or reported by a library, known by
its text, or one made by `fmt.Errorf` with a trailing `%w`, which keeps its cause. -/
inductive GoError where
  | errorf (text : String)
  | wrapf (pfx : String) (cause : GoError)
  deriving DecidableEq, Repr

/-- The method `Error()`: the text of the error; for a wrapping error the text before `%w`
followed by the text of the cause. -/
def GoError.Error : GoError → String
  | GoError.errorf text => text
  | GoError.wrapf pfx cause => pfx ++ cause.Error

/-- The function `errors.Unwrap`: the cause of a wrapping error, `none` for `nil`. -/
def GoError.Unwrap : GoError → Option GoError
  | GoError.errorf _ => none
  | GoError.wrapf _ cause => some cause

/-! ## `mqtt/owner_consent_client.go` -/

/-- An `api.OwnerConsentHandler` interface value, known by its identity. -/
structure OwnerConsentHandler where
  id : Nat
  deriving DecidableEq, Repr

/-- A `time.Duration`, in nanoseconds. -/
structure Duration where
  ns : Nat
  deriving DecidableEq, Repr

/-- The token that the paho client returns for a subscribe or unsubscribe request, as the client
observes it: whether `WaitTimeout` saw the request acknowledged within the configured timeout,
and what `Error()` reports. -/
structure Token where
  WaitTimeout : Bool
  Error : Option GoError
  deriving DecidableEq, Repr

/-- The struct `ownerConsentClient`. Of the embedded `*mqttClient`, declared in a file that is not
among the sources, it holds what the methods read: the feedback topic and the two timeouts of
`mqttConfig`; the paho client is represented by the tokens it returns. -/
structure ownerConsentClient where
  domain : String
  handler : Option OwnerConsentHandler
  topicOwnerConsentFeedback : String
  SubscribeTimeout : Duration
  UnsubscribeTimeout : Duration
  deriving DecidableEq, Repr

/-- The method `ownerConsentClient.Domain`. -/
def ownerConsentClient.Domain (client : ownerConsentClient) : String :=
  client.domain

/-- The method `ownerConsentClient.subscribe`, given the token that `pahoClient.Subscribe`
returns; `formatV` is what `fmt` prints for a duration under `%v`. -/
def ownerConsentClient.subscribe (formatV : Duration → String) (client : ownerConsentClient)
    (token : Token) : Option GoError :=
  if !token.WaitTimeout then
    some (GoError.errorf
      ("cannot subscribe for topic \'" ++ client.topicOwnerConsentFeedback ++ "\' in \'" ++
        formatV client.SubscribeTimeout ++ "\'"))
  else token.Error

/-- The method `ownerConsentClient.unsubscribe`, given the token that `pahoClient.Unsubscribe`
returns. -/
def ownerConsentClient.unsubscribe (formatV : Duration → String) (client : ownerConsentClient)
    (token : Token) : Option GoError :=
  if !token.WaitTimeout then
    some (GoError.errorf
      ("cannot unsubscribe from topic \'" ++ client.topicOwnerConsentFeedback ++ "\' in \'" ++
        formatV client.UnsubscribeTimeout ++ "\'"))
  else token.Error

/-- The method `ownerConsentClient.Start`: the client afterwards and the returned error. -/
def ownerConsentClient.Start (formatV : Duration → String) (client : ownerConsentClient)
    (consentHandler : Option OwnerConsentHandler) (token : Token) :
    ownerConsentClient × Option GoError :=
  let started := { client with handler := consentHandler }
  match started.subscribe formatV token with
  | some err =>
    ({ started with handler := none },
      some (GoError.wrapf
        ("[" ++ started.Domain ++ "] error subscribing for OwnerConsentFeedback messages: ") err))
  | none => (started, none)

/-- The method `ownerConsentClient.Stop`: the client afterwards and the returned error. -/
def ownerConsentClient.Stop (formatV : Duration → String) (client : ownerConsentClient)
    (token : Token) : ownerConsentClient × Option GoError :=
  match client.unsubscribe formatV token with
  | some err =>
    (client,
      some (GoError.wrapf
        ("[" ++ client.Domain ++ "] error unsubscribing for OwnerConsentFeedback messages: ")
        err))
  | none => ({ client with handler := none }, none)

/-- A `pahomqtt.Message`, as `handleMessage` reads it: its topic and its payload. -/
structure Message where
  Topic : String
  Payload : List Nat
  deriving DecidableEq, Repr

/-- The `types.Envelope` that `types.FromEnvelope` returns, as `handleMessage` reads it. -/
structure Envelope where
  ActivityID : String
  Timestamp : Int
  deriving DecidableEq, Repr

/-- One call of `HandleOwnerConsentFeedback` on an owner consent handler, with its arguments. -/
structure OwnerConsentCall where
  handler : OwnerConsentHandler
  activityID : String
  timestamp : Int
  feedback : OwnerConsentFeedback
  deriving DecidableEq, Repr

/-- The method `ownerConsentClient.handleMessage`: the calls it makes on the handler, in order.
`FromEnvelope` is `types.FromEnvelope` of `api/types`, which is not among the sources: from a
payload, the envelope and the owner consent feedback it fills in, or an error. The error that
the handler returns is only logged. `none` is the panic of a method call on the nil handler. -/
def ownerConsentClient.handleMessage
    (FromEnvelope : List Nat → Except GoError (Envelope × OwnerConsentFeedback))
    (client : ownerConsentClient) (message : Message) : Option (List OwnerConsentCall) :=
  let topic := message.Topic
  if topic = client.topicOwnerConsentFeedback then
    match FromEnvelope message.Payload with
    | Except.error _ => some []
    | Except.ok (envelope, ownerConsent) =>
      match client.handler with
      | none => none
      | some handler =>
        some
          [{ handler := handler
             activityID := envelope.ActivityID
             timestamp := envelope.Timestamp
             feedback := ownerConsent }]
  else some []

/-! ## More sample inputs -/

/-- A registry in which "containers" and "firmware" share one agent. -/
def sharedAgents : GoMap String UpdateManager :=
  [("containers", { id := 7 }), ("firmware", { id := 7 })]

/-- A registry with an agent of its own for "containers" and for "firmware". -/
def distinctAgents : GoMap String UpdateManager :=
  [("firmware", { id := 3 }), ("containers", { id := 4 })]

/-- An owner consent client of the domain "device" without a handler. -/
def sampleClient : ownerConsentClient :=
  { domain := "device"
    handler := none
    topicOwnerConsentFeedback := "deviceupdate/ownerconsentfeedback"
    SubscribeTimeout := { ns := 5000000000 }
    UnsubscribeTimeout := { ns := 5000000000 } }

/-- A rendering of durations for the sample inputs: the number of nanoseconds. -/
def sampleFormatV : Duration → String :=
  fun d => toString d.ns ++ "ns"

/-- A decoder for the sample inputs: the payload `[1]` is an approval for activity "A1" at
time 42, the payload `[0]` a denial, and any other payload does not parse. -/
def sampleFromEnvelope : List Nat → Except GoError (Envelope × OwnerConsentFeedback) :=
  fun payload =>
    if payload = [1] then
      Except.ok ({ ActivityID := "A1", Timestamp := 42 },
        { Status := ConsentStatusType.StatusApproved })
    else if payload = [0] then
      Except.ok ({ ActivityID := "A1", Timestamp := 42 },
        { Status := ConsentStatusType.StatusDenied })
    else Except.error (GoError.errorf "unexpected end of JSON input")

/-- The agents that the registry assigns to the entries of a range, in the order of the range:
one for every entry whose domain has a registered agent. -/
def rangeAgents (domainAgents : GoMap String UpdateManager)
    (order : List (String × DesiredState)) : List UpdateManager :=
  order.filterMap (fun entry => GoMap.lookup domainAgents entry.1)

/-! ## Facts about Go maps -/

namespace GoMap

variable {κ ν : Type}

theorem insert_ne_nil [DecidableEq κ] (m : GoMap κ ν) (k : κ) (v : ν) : insert m k v ≠ [] := by
  cases m with
  | nil => simp [insert]
  | cons e m =>
    obtain ⟨k', v'⟩ := e
    by_cases h : k = k' <;> simp [insert, h]

theorem mem_insert [DecidableEq κ] (m : GoMap κ ν) (k : κ) (v : ν) (e : κ × ν)
    (he : e ∈ insert m k v) : e = (k, v) ∨ e ∈ m := by
  induction m with
  | nil => simpa [insert] using he
  | cons e' m ih =>
    obtain ⟨k', v'⟩ := e'
    by_cases h : k = k'
    · simp only [insert, h, if_true, List.mem_cons] at he
      rcases he with he | he
      · exact Or.inl (by rw [he, h])
      · exact Or.inr (List.mem_cons_of_mem _ he)
    · simp only [insert, h, if_false, List.mem_cons] at he
      rcases he with he | he
      · exact Or.inr (by rw [he]; exact List.mem_cons_self _ _)
      · rcases ih he with h1 | h1
        · exact Or.inl h1
        · exact Or.inr (List.mem_cons_of_mem _ h1)

theorem mem_keys_insert [DecidableEq κ] (m : GoMap κ ν) (k : κ) (v : ν) (x : κ) :
    x ∈ keys (insert m k v) ↔ x = k ∨ x ∈ keys m := by
  induction m with
  | nil => simp [insert, keys]
  | cons e m ih =>
    obtain ⟨k', v'⟩ := e
    by_cases h : k = k'
    · subst h
      simp [insert, keys]
    · have ih' : x ∈ List.map Prod.fst (insert m k v) ↔ x = k ∨ x ∈ List.map Prod.fst m := ih
      simp only [insert, h, if_false, keys, List.map_cons, List.mem_cons, ih']
      tauto

theorem nodup_keys_insert [DecidableEq κ] (m : GoMap κ ν) (k : κ) (v : ν)
    (hm : (keys m).Nodup) : (keys (insert m k v)).Nodup := by
  induction m with
  | nil => simp [insert, keys]
  | cons e m ih =>
    obtain ⟨k', v'⟩ := e
    have hm' : k' ∉ keys m ∧ (keys m).Nodup := by
      simpa [keys] using hm
    by_cases h : k = k'
    · subst h
      simpa [insert, keys] using hm
    · have hk : k' ∉ keys (insert m k v) := by
        rw [mem_keys_insert]
        rintro (h1 | h1)
        · exact h h1.symm
        · exact hm'.1 h1
      have hn : (keys (insert m k v)).Nodup := ih hm'.2
      simp only [insert, h, if_false, keys, List.map_cons, List.nodup_cons]
      exact ⟨hk, hn⟩

theorem lookup_eq_none_iff [DecidableEq κ] (m : GoMap κ ν) (x : κ) :
    lookup m x = none ↔ x ∉ keys m := by
  induction m with
  | nil => simp [lookup, keys]
  | cons e m ih =>
    obtain ⟨k, v⟩ := e
    have ih' : lookup m x = none ↔ x ∉ List.map Prod.fst m := ih
    by_cases h : x = k
    · simp [lookup, keys, h]
    · simp [lookup, keys, h, ih']

theorem lookup_insert [DecidableEq κ] (m : GoMap κ ν) (k : κ) (v : ν) (x : κ) :
    lookup (insert m k v) x = if x = k then some v else lookup m x := by
  induction m with
  | nil => simp [insert, lookup]
  | cons e m ih =>
    obtain ⟨k', v'⟩ := e
    by_cases h : k = k'
    · subst h
      by_cases hx : x = k <;> simp [insert, lookup, hx]
    · by_cases hx : x = k
      · subst hx
        simp [insert, lookup, h, ih]
      · have h' : ¬ k' = k := fun hc => h hc.symm
        by_cases hx' : x = k' <;> simp [insert, lookup, h, h', hx, hx', ih]

theorem lookup_of_values [DecidableEq κ] (m : GoMap κ ν) (v : ν) (x : κ)
    (hv : ∀ e ∈ m, e.2 = v) (hx : x ∈ keys m) : lookup m x = some v := by
  induction m with
  | nil => simp [keys] at hx
  | cons e m ih =>
    obtain ⟨k, w⟩ := e
    have hw : w = v := hv (k, w) (List.mem_cons_self _ _)
    by_cases h : x = k
    · simp [lookup, h, hw]
    · have hx' : x ∈ keys m := by
        have : x = k ∨ x ∈ List.map Prod.fst m := by simpa [keys] using hx
        rcases this with h1 | h1
        · exact absurd h1 h
        · exact h1
      simp only [lookup, h, if_false]
      exact ih (fun e he => hv e (List.mem_cons_of_mem _ he)) hx'

theorem length_insert_le [DecidableEq κ] (m : GoMap κ ν) (k : κ) (v : ν) :
    (insert m k v).length ≤ m.length + 1 := by
  induction m with
  | nil => simp [insert]
  | cons e m ih =>
    obtain ⟨k', v'⟩ := e
    by_cases h : k = k'
    · simp [insert, h]
    · simp only [insert, h, if_false, List.length_cons]
      omega

theorem length_insert_of_not_mem [DecidableEq κ] (m : GoMap κ ν) (k : κ) (v : ν)
    (hk : k ∉ keys m) : (insert m k v).length = m.length + 1 := by
  induction m with
  | nil => simp [insert]
  | cons e m ih =>
    obtain ⟨k', v'⟩ := e
    have hk' : k ≠ k' ∧ k ∉ keys m := by
      simpa [keys, not_or] using hk
    simp only [insert, hk'.1, if_false, List.length_cons, ih hk'.2]

theorem lookup_of_mem_nodup [DecidableEq κ] (m : GoMap κ ν) (k : κ) (v : ν)
    (hm : (keys m).Nodup) (hmem : (k, v) ∈ m) : lookup m k = some v := by
  induction m with
  | nil => exact absurd hmem (List.not_mem_nil _)
  | cons e m ih =>
    obtain ⟨k', v'⟩ := e
    have hm' : k' ∉ keys m ∧ (keys m).Nodup := by
      simpa [keys] using hm
    rcases List.mem_cons.1 hmem with h | h
    · have h1 : k = k' := congrArg Prod.fst h
      have h2 : v = v' := congrArg Prod.snd h
      simp [lookup, h1, h2]
    · have hne : k ≠ k' := by
        intro hc
        exact hm'.1 (hc ▸ List.mem_map_of_mem Prod.fst h)
      simp only [lookup, hne, if_false]
      exact ih hm'.2 h

end GoMap

/-! ## Facts about the range of `newUpdateOperation` -/

theorem rangeBody_fold_fst_eq_nil (domainAgents : GoMap String UpdateManager)
    (order : List (String × DesiredState))
    (maps : GoMap UpdateManager DesiredState × GoMap String StatusType) :
    (order.foldl (rangeBody domainAgents) maps).1 = [] ↔
      maps.1 = [] ∧ ∀ e ∈ order, GoMap.lookup domainAgents e.1 = none := by
  induction order generalizing maps with
  | nil => simp
  | cons e order ih =>
    rw [List.foldl_cons, ih]
    cases hl : GoMap.lookup domainAgents e.1 with
    | none => simp [rangeBody, hl]
    | some a =>
      have hne : GoMap.insert maps.1 a e.2 ≠ [] := GoMap.insert_ne_nil _ _ _
      simp [rangeBody, hl, hne]

theorem rangeBody_fold_snd_keys (domainAgents : GoMap String UpdateManager)
    (order : List (String × DesiredState))
    (maps : GoMap UpdateManager DesiredState × GoMap String StatusType) (d : String) :
    d ∈ GoMap.keys (order.foldl (rangeBody domainAgents) maps).2 ↔
      d ∈ GoMap.keys maps.2 ∨ (d ∈ GoMap.keys order ∧ d ∈ GoMap.keys domainAgents) := by
  induction order generalizing maps with
  | nil => simp [GoMap.keys]
  | cons e order ih =>
    rw [List.foldl_cons, ih]
    have hk : d ∈ GoMap.keys (e :: order) ↔ d = e.1 ∨ d ∈ GoMap.keys order := by
      simp [GoMap.keys]
    rw [hk]
    cases hl : GoMap.lookup domainAgents e.1 with
    | none =>
      have hnot : e.1 ∉ GoMap.keys domainAgents := (GoMap.lookup_eq_none_iff _ _).1 hl
      simp only [rangeBody, hl]
      constructor
      · rintro (h | ⟨h1, h2⟩)
        · exact Or.inl h
        · exact Or.inr ⟨Or.inr h1, h2⟩
      · rintro (h | ⟨h1 | h1, h2⟩)
        · exact Or.inl h
        · exact absurd (h1 ▸ h2) hnot
        · exact Or.inr ⟨h1, h2⟩
    | some a =>
      have hin : e.1 ∈ GoMap.keys domainAgents := by
        by_contra hc
        rw [(GoMap.lookup_eq_none_iff _ _).2 hc] at hl
        exact Option.noConfusion hl
      simp only [rangeBody, hl, GoMap.mem_keys_insert]
      constructor
      · rintro ((h | h) | ⟨h1, h2⟩)
        · exact Or.inr ⟨Or.inl h, h ▸ hin⟩
        · exact Or.inl h
        · exact Or.inr ⟨Or.inr h1, h2⟩
      · rintro (h | ⟨h1 | h1, h2⟩)
        · exact Or.inl (Or.inr h)
        · exact Or.inl (Or.inl h1)
        · exact Or.inr ⟨h1, h2⟩

theorem rangeBody_fold_snd_values (domainAgents : GoMap String UpdateManager)
    (order : List (String × DesiredState))
    (maps : GoMap UpdateManager DesiredState × GoMap String StatusType)
    (hm : ∀ p ∈ maps.2, p.2 = StatusIdentifying) :
    ∀ p ∈ (order.foldl (rangeBody domainAgents) maps).2, p.2 = StatusIdentifying := by
  induction order generalizing maps with
  | nil => simpa using hm
  | cons e order ih =>
    rw [List.foldl_cons]
    apply ih
    cases hl : GoMap.lookup domainAgents e.1 with
    | none => simpa [rangeBody, hl] using hm
    | some a =>
      intro p hp
      simp only [rangeBody, hl] at hp
      rcases GoMap.mem_insert _ _ _ _ hp with h | h
      · rw [h]
      · exact hm p h

theorem rangeBody_fold_snd_nodup (domainAgents : GoMap String UpdateManager)
    (order : List (String × DesiredState))
    (maps : GoMap UpdateManager DesiredState × GoMap String StatusType)
    (hm : (GoMap.keys maps.2).Nodup) :
    (GoMap.keys (order.foldl (rangeBody domainAgents) maps).2).Nodup := by
  induction order generalizing maps with
  | nil => simpa using hm
  | cons e order ih =>
    rw [List.foldl_cons]
    apply ih
    cases hl : GoMap.lookup domainAgents e.1 with
    | none => simpa [rangeBody, hl] using hm
    | some a =>
      simp only [rangeBody, hl]
      exact GoMap.nodup_keys_insert _ _ _ hm

theorem rangeBody_fold_fst_keys (domainAgents : GoMap String UpdateManager)
    (order : List (String × DesiredState))
    (maps : GoMap UpdateManager DesiredState × GoMap String StatusType) (a : UpdateManager) :
    a ∈ GoMap.keys (order.foldl (rangeBody domainAgents) maps).1 ↔
      a ∈ GoMap.keys maps.1 ∨ ∃ e ∈ order, GoMap.lookup domainAgents e.1 = some a := by
  induction order generalizing maps with
  | nil => simp
  | cons e order ih =>
    rw [List.foldl_cons, ih]
    cases hl : GoMap.lookup domainAgents e.1 with
    | none =>
      simp only [rangeBody, hl, List.mem_cons]
      constructor
      · rintro (h | ⟨x, hx, hxa⟩)
        · exact Or.inl h
        · exact Or.inr ⟨x, Or.inr hx, hxa⟩
      · rintro (h | ⟨x, hx | hx, hxa⟩)
        · exact Or.inl h
        · rw [hx, hl] at hxa
          exact Option.noConfusion hxa
        · exact Or.inr ⟨x, hx, hxa⟩
    | some b =>
      simp only [rangeBody, hl, GoMap.mem_keys_insert, List.mem_cons]
      constructor
      · rintro ((h | h) | ⟨x, hx, hxa⟩)
        · exact Or.inr ⟨e, Or.inl rfl, by rw [hl, h]⟩
        · exact Or.inl h
        · exact Or.inr ⟨x, Or.inr hx, hxa⟩
      · rintro (h | ⟨x, hx | hx, hxa⟩)
        · exact Or.inl (Or.inr h)
        · rw [hx, hl] at hxa
          exact Or.inl (Or.inl (Option.some.inj hxa).symm)
        · exact Or.inr ⟨x, hx, hxa⟩

theorem rangeBody_fold_fst_nodup (domainAgents : GoMap String UpdateManager)
    (order : List (String × DesiredState))
    (maps : GoMap UpdateManager DesiredState × GoMap String StatusType)
    (hm : (GoMap.keys maps.1).Nodup) :
    (GoMap.keys (order.foldl (rangeBody domainAgents) maps).1).Nodup := by
  induction order generalizing maps with
  | nil => simpa using hm
  | cons e order ih =>
    rw [List.foldl_cons]
    apply ih
    cases hl : GoMap.lookup domainAgents e.1 with
    | none => simpa [rangeBody, hl] using hm
    | some a =>
      simp only [rangeBody, hl]
      exact GoMap.nodup_keys_insert _ _ _ hm

theorem rangeBody_fold_fst_entries (domainAgents : GoMap String UpdateManager)
    (order : List (String × DesiredState))
    (maps : GoMap UpdateManager DesiredState × GoMap String StatusType) :
    ∀ p ∈ (order.foldl (rangeBody domainAgents) maps).1,
      p ∈ maps.1 ∨ ∃ e ∈ order, GoMap.lookup domainAgents e.1 = some p.1 ∧ e.2 = p.2 := by
  induction order generalizing maps with
  | nil =>
    intro p hp
    exact Or.inl hp
  | cons e order ih =>
    intro p hp
    rw [List.foldl_cons] at hp
    rcases ih _ p hp with h | ⟨x, hx, hxa⟩
    · cases hl : GoMap.lookup domainAgents e.1 with
      | none =>
        simp only [rangeBody, hl] at h
        exact Or.inl h
      | some a =>
        simp only [rangeBody, hl] at h
        rcases GoMap.mem_insert _ _ _ _ h with h1 | h1
        · refine Or.inr ⟨e, List.mem_cons_self _ _, ?_, ?_⟩
          · rw [hl, h1]
          · rw [h1]
        · exact Or.inl h1
    · exact Or.inr ⟨x, List.mem_cons_of_mem _ hx, hxa⟩

theorem rangeAgents_cons_none (domainAgents : GoMap String UpdateManager)
    (e : String × DesiredState) (order : List (String × DesiredState))
    (hl : GoMap.lookup domainAgents e.1 = none) :
    rangeAgents domainAgents (e :: order) = rangeAgents domainAgents order := by
  simp [rangeAgents, List.filterMap_cons, hl]

theorem rangeAgents_cons_some (domainAgents : GoMap String UpdateManager)
    (e : String × DesiredState) (order : List (String × DesiredState)) (a : UpdateManager)
    (hl : GoMap.lookup domainAgents e.1 = some a) :
    rangeAgents domainAgents (e :: order) = a :: rangeAgents domainAgents order := by
  simp [rangeAgents, List.filterMap_cons, hl]

theorem mem_rangeAgents (domainAgents : GoMap String UpdateManager)
    (order : List (String × DesiredState)) (a : UpdateManager) :
    a ∈ rangeAgents domainAgents order ↔
      ∃ e ∈ order, GoMap.lookup domainAgents e.1 = some a := by
  simp [rangeAgents, List.mem_filterMap]

theorem rangeBody_fold_fst_length_le (domainAgents : GoMap String UpdateManager)
    (order : List (String × DesiredState))
    (maps : GoMap UpdateManager DesiredState × GoMap String StatusType) :
    (order.foldl (rangeBody domainAgents) maps).1.length ≤
      maps.1.length + (rangeAgents domainAgents order).length := by
  induction order generalizing maps with
  | nil => simp [rangeAgents]
  | cons e order ih =>
    rw [List.foldl_cons]
    refine le_trans (ih _) ?_
    cases hl : GoMap.lookup domainAgents e.1 with
    | none =>
      rw [rangeAgents_cons_none domainAgents e order hl]
      simp [rangeBody, hl]
    | some a =>
      rw [rangeAgents_cons_some domainAgents e order a hl]
      have hle := GoMap.length_insert_le maps.1 a e.2
      simp only [rangeBody, hl, List.length_cons]
      omega

theorem rangeBody_fold_fst_length (domainAgents : GoMap String UpdateManager)
    (order : List (String × DesiredState))
    (maps : GoMap UpdateManager DesiredState × GoMap String StatusType)
    (hnodup : (rangeAgents domainAgents order).Nodup)
    (hnew : ∀ a ∈ rangeAgents domainAgents order, a ∉ GoMap.keys maps.1) :
    (order.foldl (rangeBody domainAgents) maps).1.length =
      maps.1.length + (rangeAgents domainAgents order).length := by
  induction order generalizing maps with
  | nil => simp [rangeAgents]
  | cons e order ih =>
    rw [List.foldl_cons]
    cases hl : GoMap.lookup domainAgents e.1 with
    | none =>
      rw [rangeAgents_cons_none domainAgents e order hl] at hnodup hnew ⊢
      rw [ih _ hnodup (by simpa [rangeBody, hl] using hnew)]
      simp [rangeBody, hl]
    | some a =>
      rw [rangeAgents_cons_some domainAgents e order a hl] at hnodup hnew ⊢
      have hcons := List.nodup_cons.1 hnodup
      have ha : a ∉ GoMap.keys maps.1 := hnew a (List.mem_cons_self _ _)
      have hnew' : ∀ b ∈ rangeAgents domainAgents order,
          b ∉ GoMap.keys (rangeBody domainAgents maps e).1 := by
        intro b hb
        simp only [rangeBody, hl, GoMap.mem_keys_insert]
        rintro (h | h)
        · exact hcons.1 (h ▸ hb)
        · exact hnew b (List.mem_cons_of_mem _ hb) h
      rw [ih _ hcons.2 hnew']
      simp only [rangeBody, hl, List.length_cons,
        GoMap.length_insert_of_not_mem maps.1 a e.2 ha]
      omega

theorem rangeBody_fold_snd_length (domainAgents : GoMap String UpdateManager)
    (order : List (String × DesiredState))
    (maps : GoMap UpdateManager DesiredState × GoMap String StatusType)
    (hnodup : (GoMap.keys order).Nodup)
    (hnew : ∀ d ∈ GoMap.keys order, d ∉ GoMap.keys maps.2) :
    (order.foldl (rangeBody domainAgents) maps).2.length =
      maps.2.length + (rangeAgents domainAgents order).length := by
  induction order generalizing maps with
  | nil => simp [rangeAgents]
  | cons e order ih =>
    rw [List.foldl_cons]
    have hcons : e.1 ∉ GoMap.keys order ∧ (GoMap.keys order).Nodup := by
      simpa [GoMap.keys] using hnodup
    have hnew0 : ∀ d ∈ GoMap.keys order, d ∉ GoMap.keys maps.2 := by
      intro d hd
      exact hnew d (by simp only [GoMap.keys, List.map_cons]; exact List.mem_cons_of_mem _ hd)
    cases hl : GoMap.lookup domainAgents e.1 with
    | none =>
      rw [rangeAgents_cons_none domainAgents e order hl]
      rw [ih _ hcons.2 (by simpa [rangeBody, hl] using hnew0)]
      simp [rangeBody, hl]
    | some a =>
      rw [rangeAgents_cons_some domainAgents e order a hl]
      have he : e.1 ∉ GoMap.keys maps.2 :=
        hnew e.1 (by simp [GoMap.keys])
      have hnew' : ∀ d ∈ GoMap.keys order,
          d ∉ GoMap.keys (rangeBody domainAgents maps e).2 := by
        intro d hd
        simp only [rangeBody, hl, GoMap.mem_keys_insert]
        rintro (h | h)
        · exact hcons.1 (h ▸ hd)
        · exact hnew0 d hd h
      rw [ih _ hcons.2 hnew']
      simp only [rangeBody, hl, List.length_cons,
        GoMap.length_insert_of_not_mem maps.2 e.1 StatusIdentifying he]
      omega

theorem rangeAgents_nodup (domainAgents : GoMap String UpdateManager)
    (order : List (String × DesiredState))
    (hnodup : (GoMap.keys order).Nodup)
    (hinj : ∀ d d' a, d ∈ GoMap.keys order → d' ∈ GoMap.keys order →
      GoMap.lookup domainAgents d = some a → GoMap.lookup domainAgents d' = some a → d = d') :
    (rangeAgents domainAgents order).Nodup := by
  induction order with
  | nil => simp [rangeAgents]
  | cons e order ih =>
    have hcons : e.1 ∉ GoMap.keys order ∧ (GoMap.keys order).Nodup := by
      simpa [GoMap.keys] using hnodup
    have hsub : ∀ d, d ∈ GoMap.keys order → d ∈ GoMap.keys (e :: order) := by
      intro d hd
      simp only [GoMap.keys, List.map_cons]
      exact List.mem_cons_of_mem _ hd
    have ih' := ih hcons.2 (fun d d' a hd hd' => hinj d d' a (hsub d hd) (hsub d' hd'))
    cases hl : GoMap.lookup domainAgents e.1 with
    | none =>
      rw [rangeAgents_cons_none domainAgents e order hl]
      exact ih'
    | some a =>
      rw [rangeAgents_cons_some domainAgents e order a hl]
      refine List.nodup_cons.2 ⟨?_, ih'⟩
      intro hmem
      obtain ⟨x, hx, hxa⟩ := (mem_rangeAgents domainAgents order a).1 hmem
      have hxk : x.1 ∈ GoMap.keys order := List.mem_map_of_mem Prod.fst hx
      have heq : e.1 = x.1 :=
        hinj e.1 x.1 a (by simp [GoMap.keys]) (hsub x.1 hxk) hl hxa
      exact hcons.1 (heq ▸ hxk)

/-- An agent whose entry is already its final one keeps it through the range. -/
theorem rangeBody_fold_fst_lookup_stable (domainAgents : GoMap String UpdateManager)
    (order : List (String × DesiredState))
    (maps : GoMap UpdateManager DesiredState × GoMap String StatusType)
    (a : UpdateManager) (sub : DesiredState)
    (hm : GoMap.lookup maps.1 a = some sub)
    (hall : ∀ e ∈ order, GoMap.lookup domainAgents e.1 = some a → e.2 = sub) :
    GoMap.lookup (order.foldl (rangeBody domainAgents) maps).1 a = some sub := by
  induction order generalizing maps with
  | nil => simpa using hm
  | cons e order ih =>
    rw [List.foldl_cons]
    apply ih
    · cases hl : GoMap.lookup domainAgents e.1 with
      | none => simpa [rangeBody, hl] using hm
      | some b =>
        simp only [rangeBody, hl, GoMap.lookup_insert]
        by_cases hab : a = b
        · have := hall e (List.mem_cons_self _ _) (by rw [hl, hab])
          simp [hab, this]
        · simp [hab, hm]
    · intro x hx
      exact hall x (List.mem_cons_of_mem _ hx)

/-- The entry of an agent after the range is the sub-manifest of its domain, when all the
domains of the range that the registry gives to this agent carry that sub-manifest. -/
theorem rangeBody_fold_fst_lookup (domainAgents : GoMap String UpdateManager)
    (order : List (String × DesiredState))
    (maps : GoMap UpdateManager DesiredState × GoMap String StatusType)
    (a : UpdateManager) (sub : DesiredState)
    (hex : ∃ e ∈ order, GoMap.lookup domainAgents e.1 = some a)
    (hall : ∀ e ∈ order, GoMap.lookup domainAgents e.1 = some a → e.2 = sub) :
    GoMap.lookup (order.foldl (rangeBody domainAgents) maps).1 a = some sub := by
  induction order generalizing maps with
  | nil =>
    obtain ⟨e, he, _⟩ := hex
    exact absurd he (List.not_mem_nil _)
  | cons x order ih =>
    rw [List.foldl_cons]
    have hall' : ∀ e ∈ order, GoMap.lookup domainAgents e.1 = some a → e.2 = sub :=
      fun e he => hall e (List.mem_cons_of_mem _ he)
    by_cases hx : GoMap.lookup domainAgents x.1 = some a
    · apply rangeBody_fold_fst_lookup_stable domainAgents order _ a sub _ hall'
      have hsub := hall x (List.mem_cons_self _ _) hx
      simp [rangeBody, hx, GoMap.lookup_insert, hsub]
    · apply ih _ _ hall'
      obtain ⟨e, he, hea⟩ := hex
      rcases List.mem_cons.1 he with h | h
      · rw [h] at hea
        exact absurd hea hx
      · exact ⟨e, h, hea⟩

theorem rangeBody_fold_snd_lookup (domainAgents : GoMap String UpdateManager)
    (order : List (String × DesiredState)) (d : String) :
    (d ∈ GoMap.keys order ∧ d ∈ GoMap.keys domainAgents →
      GoMap.lookup (order.foldl (rangeBody domainAgents) ([], [])).2 d =
        some StatusIdentifying) ∧
    (¬ (d ∈ GoMap.keys order ∧ d ∈ GoMap.keys domainAgents) →
      GoMap.lookup (order.foldl (rangeBody domainAgents) ([], [])).2 d = none) := by
  have hkeys := rangeBody_fold_snd_keys domainAgents order ([], []) d
  have hvalues := rangeBody_fold_snd_values domainAgents order ([], []) (by simp)
  constructor
  · intro h
    exact GoMap.lookup_of_values _ _ _ hvalues (hkeys.2 (Or.inr h))
  · intro h
    apply (GoMap.lookup_eq_none_iff _ _).2
    intro hmem
    rcases hkeys.1 hmem with h1 | h1
    · simp [GoMap.keys] at h1
    · exact h h1

theorem SplitPerDomains_keys_nodup (desiredState : DesiredState) :
    (GoMap.keys desiredState.SplitPerDomains).Nodup := by
  have hgen : ∀ (domains : List Domain) (split : GoMap String DesiredState),
      (GoMap.keys split).Nodup →
      (GoMap.keys (domains.foldl
        (fun split domain =>
          if domain.Components = [] then split
          else
            match GoMap.lookup split domain.ID with
            | none => GoMap.insert split domain.ID { Domains := [domain] }
            | some sub => GoMap.insert split domain.ID { Domains := sub.Domains ++ [domain] })
        split)).Nodup := by
    intro domains
    induction domains with
    | nil =>
      intro split hs
      simpa using hs
    | cons domain domains ih =>
      intro split hs
      rw [List.foldl_cons]
      apply ih
      by_cases hc : domain.Components = []
      · simpa [hc] using hs
      · cases hl : GoMap.lookup split domain.ID with
        | none =>
          simp only [hc, if_false]
          exact GoMap.nodup_keys_insert _ _ _ hs
        | some sub =>
          simp only [hc, if_false]
          exact GoMap.nodup_keys_insert _ _ _ hs
  exact hgen desiredState.Domains [] (by simp [GoMap.keys])

theorem keys_perm {order split : List (String × DesiredState)} (h : order.Perm split)
    (d : String) : d ∈ GoMap.keys order ↔ d ∈ GoMap.keys split :=
  (h.map Prod.fst).mem_iff

/-! ## Facts about `newUpdateOperation` -/

theorem newUpdateOperation_eq (domainAgents : GoMap String UpdateManager) (activityID : String)
    (desiredState : DesiredState) (desiredStateCallback : Option DesiredStateFeedbackHandler) :
    newUpdateOperation domainAgents activityID desiredState desiredStateCallback =
      newUpdateOperationIn desiredState.SplitPerDomains domainAgents activityID desiredState
        desiredStateCallback :=
  rfl

/-- No entry of the range is supported: the constructor fails with its one error. -/
theorem newUpdateOperationIn_error (order : List (String × DesiredState))
    (domainAgents : GoMap String UpdateManager) (activityID : String)
    (desiredState : DesiredState) (desiredStateCallback : Option DesiredStateFeedbackHandler)
    (h : ∀ d ∈ GoMap.keys order, d ∉ GoMap.keys domainAgents) :
    newUpdateOperationIn order domainAgents activityID desiredState desiredStateCallback =
      Except.error noSupportedDomain := by
  have hnone : ∀ e ∈ order, GoMap.lookup domainAgents e.1 = none := by
    intro e he
    exact (GoMap.lookup_eq_none_iff _ _).2 (h e.1 (List.mem_map_of_mem Prod.fst he))
  have hnil : (order.foldl (rangeBody domainAgents) ([], [])).1 = [] :=
    (rangeBody_fold_fst_eq_nil domainAgents order ([], [])).2 ⟨rfl, hnone⟩
  simp [newUpdateOperationIn, GoMap.len, hnil]

/-- Some entry of the range is supported: the constructor returns the operation built from the
two maps of the range. -/
theorem newUpdateOperationIn_ok (order : List (String × DesiredState))
    (domainAgents : GoMap String UpdateManager) (activityID : String)
    (desiredState : DesiredState) (desiredStateCallback : Option DesiredStateFeedbackHandler)
    (h : ∃ d ∈ GoMap.keys order, d ∈ GoMap.keys domainAgents) :
    newUpdateOperationIn order domainAgents activityID desiredState desiredStateCallback =
      Except.ok
        { activityID := activityID
          status := StatusIdentifying
          delayedStatus := none
          domains := (order.foldl (rangeBody domainAgents) ([], [])).2
          actions := []
          desiredState := desiredState
          statesPerDomain := (order.foldl (rangeBody domainAgents) ([], [])).1
          phaseChannels := generatePhaseChannels
          errChan := some (make 1)
          ownerConsented := none
          errMsg := ""
          rebootRequired := false
          desiredStateCallback := desiredStateCallback } := by
  have hne : (order.foldl (rangeBody domainAgents) ([], [])).1 ≠ [] := by
    intro hnil
    obtain ⟨d, hd, hreg⟩ := h
    obtain ⟨e, he, hed⟩ := List.mem_map.1 hd
    have hnone := ((rangeBody_fold_fst_eq_nil domainAgents order ([], [])).1 hnil).2 e he
    rw [hed] at hnone
    exact (GoMap.lookup_eq_none_iff _ _).1 hnone hreg
  simp [newUpdateOperationIn, GoMap.len, hne]

/-- The constructor either fails, when no entry of the range is supported, or returns the
operation built from the two maps of the range. -/
theorem newUpdateOperationIn_ok_inv (order : List (String × DesiredState))
    (domainAgents : GoMap String UpdateManager) (activityID : String)
    (desiredState : DesiredState) (desiredStateCallback : Option DesiredStateFeedbackHandler)
    (operation : updateOperation)
    (hok : newUpdateOperationIn order domainAgents activityID desiredState
      desiredStateCallback = Except.ok operation) :
    operation =
      { activityID := activityID
        status := StatusIdentifying
        delayedStatus := none
        domains := (order.foldl (rangeBody domainAgents) ([], [])).2
        actions := []
        desiredState := desiredState
        statesPerDomain := (order.foldl (rangeBody domainAgents) ([], [])).1
        phaseChannels := generatePhaseChannels
        errChan := some (make 1)
        ownerConsented := none
        errMsg := ""
        rebootRequired := false
        desiredStateCallback := desiredStateCallback } := by
  by_cases h : ∃ d ∈ GoMap.keys order, d ∈ GoMap.keys domainAgents
  · rw [newUpdateOperationIn_ok order domainAgents activityID desiredState desiredStateCallback h]
      at hok
    exact (Except.ok.inj hok).symm
  · have h' : ∀ d ∈ GoMap.keys order, d ∉ GoMap.keys domainAgents := by
      intro d hd hreg
      exact h ⟨d, hd, hreg⟩
    rw [newUpdateOperationIn_error order domainAgents activityID desiredState
      desiredStateCallback h'] at hok
    exact Except.noConfusion hok

/-- A successful construction has seen a domain of the range with a registered agent, and has a
non-empty `statesPerDomain`. -/
theorem newUpdateOperationIn_ok_supported (order : List (String × DesiredState))
    (domainAgents : GoMap String UpdateManager) (activityID : String)
    (desiredState : DesiredState) (desiredStateCallback : Option DesiredStateFeedbackHandler)
    (operation : updateOperation)
    (hok : newUpdateOperationIn order domainAgents activityID desiredState
      desiredStateCallback = Except.ok operation) :
    (∃ d ∈ GoMap.keys order, d ∈ GoMap.keys domainAgents) ∧
    (order.foldl (rangeBody domainAgents) ([], [])).1 ≠ [] := by
  have hex : ∃ d ∈ GoMap.keys order, d ∈ GoMap.keys domainAgents := by
    by_contra h
    have h' : ∀ d ∈ GoMap.keys order, d ∉ GoMap.keys domainAgents := by
      intro d hd hreg
      exact h ⟨d, hd, hreg⟩
    rw [newUpdateOperationIn_error order domainAgents activityID desiredState
      desiredStateCallback h'] at hok
    exact Except.noConfusion hok
  refine ⟨hex, ?_⟩
  intro hnil
  obtain ⟨d, hd, hreg⟩ := hex
  obtain ⟨e, he, hed⟩ := List.mem_map.1 hd
  have hnone := ((rangeBody_fold_fst_eq_nil domainAgents order ([], [])).1 hnil).2 e he
  rw [hed] at hnone
  exact (GoMap.lookup_eq_none_iff _ _).1 hnone hreg

/-- Two maps with the same keys, each once, and one value throughout have the same entries up
to their order. -/
theorem perm_of_values {ν : Type} (first second : GoMap String ν) (v : ν)
    (hfirst : ∀ e ∈ first, e.2 = v) (hsecond : ∀ e ∈ second, e.2 = v)
    (hnd1 : (GoMap.keys first).Nodup) (hnd2 : (GoMap.keys second).Nodup)
    (hkeys : ∀ d, d ∈ GoMap.keys first ↔ d ∈ GoMap.keys second) :
    first.Perm second := by
  have hmap : ∀ m : GoMap String ν, (∀ e ∈ m, e.2 = v) →
      m = (GoMap.keys m).map (fun d => (d, v)) := by
    intro m
    induction m with
    | nil =>
      intro _
      rfl
    | cons e m ih =>
      intro hm
      obtain ⟨d, w⟩ := e
      have hw : w = v := hm (d, w) (List.mem_cons_self _ _)
      have ih' := ih (fun e he => hm e (List.mem_cons_of_mem _ he))
      simp only [GoMap.keys, List.map_cons, hw]
      simp only [GoMap.keys] at ih'
      rw [← ih']
  rw [hmap first hfirst, hmap second hsecond]
  exact ((List.perm_ext_iff_of_nodup hnd1 hnd2).2 hkeys).map _

/-! ## The claims -/

/-- C1: `newUpdateOperation` returns an error exactly when no domain key of
`desiredState.SplitPerDomains()` is a key of the agent registry, in whatever order the split
is ranged over: then no operation is returned and the error reads "the desired state manifest
does not contain any supported domain"; as soon as one domain key of the split is a key of the
registry it returns an operation and no error. -/
theorem newUpdateOperation_error_iff (order : List (String × DesiredState))
    (domainAgents : GoMap String UpdateManager) (activityID : String)
    (desiredState : DesiredState) (desiredStateCallback : Option DesiredStateFeedbackHandler)
    (horder : order.Perm desiredState.SplitPerDomains) :
    ((∀ d ∈ GoMap.keys desiredState.SplitPerDomains, d ∉ GoMap.keys domainAgents) →
      newUpdateOperationIn order domainAgents activityID desiredState desiredStateCallback =
        Except.error "the desired state manifest does not contain any supported domain") ∧
    ((∃ d ∈ GoMap.keys desiredState.SplitPerDomains, d ∈ GoMap.keys domainAgents) →
      ∃ operation,
        newUpdateOperationIn order domainAgents activityID desiredState desiredStateCallback =
          Except.ok operation) := by
  constructor
  · intro h
    exact newUpdateOperationIn_error order domainAgents activityID desiredState
      desiredStateCallback (fun d hd => h d ((keys_perm horder d).1 hd))
  · rintro ⟨d, hd, hreg⟩
    exact ⟨_, newUpdateOperationIn_ok order domainAgents activityID desiredState
      desiredStateCallback ⟨d, (keys_perm horder d).2 hd, hreg⟩⟩

/-- C1 at work: a nil registry with the sample manifest and the sample registry with a manifest
without domains both give the error; the sample registry with the sample manifest, ranged over
in reverse, gives an operation. -/
theorem newUpdateOperation_error_iff_witness :
    (sampleDesiredState.SplitPerDomains.reverse).Perm sampleDesiredState.SplitPerDomains ∧
    newUpdateOperationIn sampleDesiredState.SplitPerDomains.reverse [] "A1" sampleDesiredState
        none =
      Except.error "the desired state manifest does not contain any supported domain" ∧
    newUpdateOperationIn [] sampleAgents "A1" { Domains := [] } none =
      Except.error "the desired state manifest does not contain any supported domain" ∧
    ∃ operation,
      newUpdateOperationIn sampleDesiredState.SplitPerDomains.reverse sampleAgents "A1"
        sampleDesiredState none = Except.ok operation :=
  ⟨List.reverse_perm _,
   (newUpdateOperation_error_iff sampleDesiredState.SplitPerDomains.reverse [] "A1"
      sampleDesiredState none (List.reverse_perm _)).1 (by decide),
   (newUpdateOperation_error_iff [] sampleAgents "A1" { Domains := [] } none
      (List.Perm.refl _)).1 (by decide),
   (newUpdateOperation_error_iff sampleDesiredState.SplitPerDomains.reverse sampleAgents "A1"
      sampleDesiredState none (List.reverse_perm _)).2 (by decide)⟩

/-- C2: when `newUpdateOperation` succeeds, in whatever order the split is ranged over, the keys
of `operation.domains` are exactly the domain names that are keys of
`desiredState.SplitPerDomains()` and keys of the registry, each once: a manifest domain without
a registered agent is absent, and so is a registered domain that the manifest lacks. -/
theorem newUpdateOperation_domains_keys (order : List (String × DesiredState))
    (domainAgents : GoMap String UpdateManager) (activityID : String)
    (desiredState : DesiredState) (desiredStateCallback : Option DesiredStateFeedbackHandler)
    (operation : updateOperation)
    (horder : order.Perm desiredState.SplitPerDomains)
    (hok : newUpdateOperationIn order domainAgents activityID desiredState
      desiredStateCallback = Except.ok operation) :
    (∀ d, d ∈ GoMap.keys operation.domains ↔
      (d ∈ GoMap.keys desiredState.SplitPerDomains ∧ d ∈ GoMap.keys domainAgents)) ∧
    (GoMap.keys operation.domains).Nodup := by
  have hop := newUpdateOperationIn_ok_inv order domainAgents activityID desiredState
    desiredStateCallback operation hok
  subst hop
  constructor
  · intro d
    rw [rangeBody_fold_snd_keys domainAgents order ([], []) d, keys_perm horder d]
    simp [GoMap.keys]
  · exact rangeBody_fold_snd_nodup domainAgents order ([], []) (by simp [GoMap.keys])

/-- C3: every successfully constructed operation has `StatusIdentifying` as the value of every
entry of `operation.domains` and as `operation.status`, and an `operation.actions` without
entries, so that no domain has a recorded action. -/
theorem newUpdateOperation_initial_statuses (order : List (String × DesiredState))
    (domainAgents : GoMap String UpdateManager) (activityID : String)
    (desiredState : DesiredState) (desiredStateCallback : Option DesiredStateFeedbackHandler)
    (operation : updateOperation)
    (hok : newUpdateOperationIn order domainAgents activityID desiredState
      desiredStateCallback = Except.ok operation) :
    (∀ entry ∈ operation.domains, entry.2 = StatusIdentifying) ∧
    (∀ d ∈ GoMap.keys operation.domains,
      GoMap.lookup operation.domains d = some StatusIdentifying) ∧
    operation.status = StatusIdentifying ∧
    operation.actions = [] ∧
    (∀ d, GoMap.lookup operation.actions d = none) := by
  have hop := newUpdateOperationIn_ok_inv order domainAgents activityID desiredState
    desiredStateCallback operation hok
  subst hop
  have hvalues := rangeBody_fold_snd_values domainAgents order ([], []) (by simp)
  refine ⟨hvalues, ?_, rfl, rfl, fun d => rfl⟩
  intro d hd
  exact GoMap.lookup_of_values _ _ _ hvalues hd

/-- C2 at work: the sample manifest has "containers" and "firmware", the sample registry
"containers" and "safety-app"; ranged over in reverse, the operation has the one domain
"containers". -/
theorem newUpdateOperation_domains_keys_witness :
    (sampleDesiredState.SplitPerDomains.reverse).Perm sampleDesiredState.SplitPerDomains ∧
    newUpdateOperationIn sampleDesiredState.SplitPerDomains.reverse sampleAgents "A1"
        sampleDesiredState none = Except.ok sampleConstructed ∧
    GoMap.keys sampleConstructed.domains = ["containers"] ∧
    ((∀ d, d ∈ GoMap.keys sampleConstructed.domains ↔
      (d ∈ GoMap.keys sampleDesiredState.SplitPerDomains ∧ d ∈ GoMap.keys sampleAgents)) ∧
      (GoMap.keys sampleConstructed.domains).Nodup) :=
  ⟨List.reverse_perm _, rfl, rfl,
   newUpdateOperation_domains_keys sampleDesiredState.SplitPerDomains.reverse sampleAgents "A1"
     sampleDesiredState none sampleConstructed (List.reverse_perm _) rfl⟩

/-- C3 at work, on the operation built from the sample registry and the sample manifest. -/
theorem newUpdateOperation_initial_statuses_witness :
    newUpdateOperationIn sampleDesiredState.SplitPerDomains sampleAgents "A1"
        sampleDesiredState none = Except.ok sampleConstructed ∧
    ((∀ entry ∈ sampleConstructed.domains, entry.2 = StatusIdentifying) ∧
      (∀ d ∈ GoMap.keys sampleConstructed.domains,
        GoMap.lookup sampleConstructed.domains d = some StatusIdentifying) ∧
      sampleConstructed.status = StatusIdentifying ∧
      sampleConstructed.actions = [] ∧
      (∀ d, GoMap.lookup sampleConstructed.actions d = none)) :=
  ⟨rfl,
   newUpdateOperation_initial_statuses sampleDesiredState.SplitPerDomains sampleAgents "A1"
     sampleDesiredState none sampleConstructed rfl⟩

/-- C4, as stated, fails: on an operation whose status is `StatusCompleted`,
`updateStatus(StatusIdentifying)` is given a status that ranks below the current one and is no
terminal failure, and the status moves back to `StatusIdentifying`. -/
theorem updateStatus_downgrade_not_dropped :
    StatusIdentifying.rank < completedOperation.status.rank ∧
    StatusIdentifying.isTerminalFailure = false ∧
    (completedOperation.updateStatus StatusIdentifying).status = StatusIdentifying ∧
    (completedOperation.updateStatus StatusIdentifying).status ≠ completedOperation.status := by
  decide

/-- C4, amended: `updateStatus(s)` sets `operation.status` to `s` for every operation and every
status `s`, also when `s` ranks below the current status and is no terminal failure; the status
is left as it was only when `s` is the current status. -/
theorem updateStatus_sets_status (operation : updateOperation) (s : StatusType) :
    (operation.updateStatus s).status = s ∧
    ((operation.updateStatus s).status = operation.status ↔ s = operation.status) :=
  ⟨rfl, Iff.rfl⟩

/-- When the construction fails, `Apply` returns false after one call on the callback, which
carries the activity ID passed to `Apply` and the text of the error as message. -/
theorem Apply_of_error (phaseLoop : updateOperation → Bool × List FeedbackEvent)
    (domainAgents : GoMap String UpdateManager) (activityID : String)
    (desiredState : DesiredState) (desiredStateCallback : Option DesiredStateFeedbackHandler)
    (err : String)
    (herr : newUpdateOperation domainAgents activityID desiredState desiredStateCallback =
      Except.error err) :
    Apply phaseLoop domainAgents activityID desiredState desiredStateCallback =
      (false,
        [{ domain := "device"
           activityID := activityID
           baseline := ""
           status := StatusIncomplete
           message := err
           actions := some [] }]) := by
  simp [Apply, herr]

/-- On the input of `TestUpdOrchApply/test_empty_domainAgents_err_not_nil`, a nil registry and a
manifest with an empty `Domains`, `Apply` returns false after one call that has every argument
the test expects but for the activity ID, which is the one passed in; it is the expected call
itself exactly when the activity ID passed in is empty. -/
theorem Apply_on_test_input (phaseLoop : updateOperation → Bool × List FeedbackEvent)
    (activityID : String) (desiredStateCallback : Option DesiredStateFeedbackHandler) :
    Apply phaseLoop [] activityID { Domains := [] } desiredStateCallback =
      (false, [{ expectedEmptyDomainAgentsFeedback with activityID := activityID }]) ∧
    (Apply phaseLoop [] activityID { Domains := [] } desiredStateCallback =
      (false, [expectedEmptyDomainAgentsFeedback]) ↔ activityID = "") := by
  refine ⟨rfl, ?_⟩
  constructor
  · intro h
    have h2 := congrArg (fun r => r.2.map FeedbackEvent.activityID) h
    simpa [Apply, newUpdateOperation, newUpdateOperationIn, DesiredState.SplitPerDomains,
      GoMap.len, expectedEmptyDomainAgentsFeedback] using h2
  · intro h
    subst h
    rfl

/-- C5: for every activity ID and callback, when no domain of the desired state has a registered
agent, `Apply` returns false and calls `HandleDesiredStateFeedbackEvent` on the callback exactly
once, with domain "device", status `StatusIncomplete`, the message "the desired state manifest
does not contain any supported domain" and an empty, non-nil action list. -/
theorem Apply_no_supported_domain (phaseLoop : updateOperation → Bool × List FeedbackEvent)
    (domainAgents : GoMap String UpdateManager) (activityID : String)
    (desiredState : DesiredState) (desiredStateCallback : Option DesiredStateFeedbackHandler)
    (h : ∀ d ∈ GoMap.keys desiredState.SplitPerDomains, d ∉ GoMap.keys domainAgents) :
    (Apply phaseLoop domainAgents activityID desiredState desiredStateCallback).1 = false ∧
    ∃ event,
      (Apply phaseLoop domainAgents activityID desiredState desiredStateCallback).2 = [event] ∧
      event.domain = "device" ∧
      event.status = StatusIncomplete ∧
      event.message = "the desired state manifest does not contain any supported domain" ∧
      event.actions = some [] := by
  have herr := newUpdateOperationIn_error desiredState.SplitPerDomains domainAgents activityID
    desiredState desiredStateCallback h
  rw [← newUpdateOperation_eq] at herr
  rw [Apply_of_error phaseLoop domainAgents activityID desiredState desiredStateCallback _ herr]
  exact ⟨rfl, _, rfl, rfl, rfl, rfl, rfl⟩

/-- C5 at work: an empty `Domains` list with a nil agent registry, and the sample manifest with
a registry that knows none of its domains. -/
theorem Apply_no_supported_domain_witness :
    (∀ d ∈ GoMap.keys (DesiredState.SplitPerDomains { Domains := [] }),
      d ∉ GoMap.keys ([] : GoMap String UpdateManager)) ∧
    Apply idlePhaseLoop [] "A1" { Domains := [] } none =
      (false,
        [{ domain := "device"
           activityID := "A1"
           baseline := ""
           status := StatusIncomplete
           message := "the desired state manifest does not contain any supported domain"
           actions := some [] }]) ∧
    ((Apply idlePhaseLoop [("safety-app", { id := 2 })] "A1" sampleDesiredState none).1 = false ∧
      ∃ event,
        (Apply idlePhaseLoop [("safety-app", { id := 2 })] "A1" sampleDesiredState none).2 =
          [event] ∧
        event.domain = "device" ∧
        event.status = StatusIncomplete ∧
        event.message = "the desired state manifest does not contain any supported domain" ∧
        event.actions = some []) :=
  ⟨by decide, rfl,
   Apply_no_supported_domain idlePhaseLoop [("safety-app", { id := 2 })] "A1"
     sampleDesiredState none (by decide)⟩

/-- C6: the single terminal feedback that `Apply` emits when the construction of the update
operation fails carries the activity ID that was passed to `Apply` and an empty baseline. -/
theorem Apply_error_feedback_carries_activityID
    (phaseLoop : updateOperation → Bool × List FeedbackEvent)
    (domainAgents : GoMap String UpdateManager) (activityID : String)
    (desiredState : DesiredState) (desiredStateCallback : Option DesiredStateFeedbackHandler)
    (err : String)
    (herr : newUpdateOperation domainAgents activityID desiredState desiredStateCallback =
      Except.error err) :
    ∃ event,
      (Apply phaseLoop domainAgents activityID desiredState desiredStateCallback).2 = [event] ∧
      event.activityID = activityID ∧
      event.baseline = "" := by
  rw [Apply_of_error phaseLoop domainAgents activityID desiredState desiredStateCallback err herr]
  exact ⟨_, rfl, rfl, rfl⟩

/-- C6 at work on the scenario of the spec: activity ID "A1" and a manifest without domains. -/
theorem Apply_error_feedback_carries_activityID_witness :
    newUpdateOperation [] "A1" { Domains := [] } none = Except.error noSupportedDomain ∧
    (Apply idlePhaseLoop [] "A1" { Domains := [] } none).2.map FeedbackEvent.activityID =
      ["A1"] ∧
    ∃ event,
      (Apply idlePhaseLoop [] "A1" { Domains := [] } none).2 = [event] ∧
      event.activityID = "A1" ∧
      event.baseline = "" :=
  ⟨rfl, rfl,
   Apply_error_feedback_carries_activityID idlePhaseLoop [] "A1" { Domains := [] } none
     noSupportedDomain rfl⟩

/-- The channel of the operation after a matching owner consent feedback, and what was sent: a
nil channel stays nil with nothing sent, any other channel is left as the non-blocking send
leaves it. -/
theorem HandleOwnerConsentFeedback_of_matching (receiving : Bool)
    (orchestrator : updateOrchestrator) (operation : updateOperation) (activityID : String)
    (timestamp : Int) (feedback : OwnerConsentFeedback)
    (hop : orchestrator.operation = some operation)
    (hid : operation.activityID = activityID) :
    HandleOwnerConsentFeedback receiving orchestrator activityID timestamp feedback =
      match operation.ownerConsented with
      | none => (orchestrator, [])
      | some c =>
        ({ orchestrator with
            operation := some
              { operation with
                ownerConsented := some
                  (Chan.sendOrDiscard c receiving
                    (decide (feedback.Status = ConsentStatusType.StatusApproved))).1 } },
          if (Chan.sendOrDiscard c receiving
                (decide (feedback.Status = ConsentStatusType.StatusApproved))).2 then
            [decide (feedback.Status = ConsentStatusType.StatusApproved)]
          else []) := by
  simp only [HandleOwnerConsentFeedback, hop, hid, if_true]

/-- C7, as stated, fails: the slot of `ownerConsented` already holds an approval that nobody has
received, nobody is receiving, and a denial arrives for the activity ID of the active operation:
the duplicate is discarded, no boolean is sent and the slot keeps the approval. -/
theorem HandleOwnerConsentFeedback_duplicate_discarded :
    pendingConsentOperation.activityID = "A1" ∧
    (HandleOwnerConsentFeedback false { operation := some pendingConsentOperation } "A1" 0
      { Status := ConsentStatusType.StatusDenied }).2 = [] ∧
    (HandleOwnerConsentFeedback false { operation := some pendingConsentOperation } "A1" 0
      { Status := ConsentStatusType.StatusDenied }).1 =
        { operation := some pendingConsentOperation } := by
  decide

/-- C7, amended: for every owner consent feedback whose activity ID is that of the active
operation, `HandleOwnerConsentFeedback` sends at most one boolean on `operation.ownerConsented`:
exactly one when the send can proceed, which is when a receiver is waiting on the channel or its
buffer has room, and none when the buffer is full and nobody is receiving (a duplicate is
discarded). A boolean that is sent is true if and only if `feedback.Status` is `StatusApproved`,
so `StatusDenied` gives false. A value sent without a receiver is appended to the buffer;
otherwise the channel is as it was. -/
theorem HandleOwnerConsentFeedback_matching (receiving : Bool)
    (orchestrator : updateOrchestrator) (operation : updateOperation) (activityID : String)
    (timestamp : Int) (feedback : OwnerConsentFeedback)
    (hop : orchestrator.operation = some operation)
    (hid : operation.activityID = activityID) :
    (∀ c, operation.ownerConsented = some c → (receiving = true ∨ c.buf.length < c.cap) →
      ∃ approved,
        (HandleOwnerConsentFeedback receiving orchestrator activityID timestamp feedback).2 =
          [approved] ∧
        (approved = true ↔ feedback.Status = ConsentStatusType.StatusApproved) ∧
        (feedback.Status = ConsentStatusType.StatusDenied → approved = false) ∧
        (HandleOwnerConsentFeedback receiving orchestrator activityID timestamp
          feedback).1.operation =
          some { operation with
                  ownerConsented := some
                    (if receiving then c else { c with buf := c.buf ++ [approved] }) }) ∧
    (∀ c, operation.ownerConsented = some c → receiving = false → ¬ c.buf.length < c.cap →
      (HandleOwnerConsentFeedback receiving orchestrator activityID timestamp feedback).2 = [] ∧
      (HandleOwnerConsentFeedback receiving orchestrator activityID timestamp
        feedback).1.operation = some operation) ∧
    (HandleOwnerConsentFeedback receiving orchestrator activityID timestamp
      feedback).2.length ≤ 1 ∧
    (∀ sent ∈
        (HandleOwnerConsentFeedback receiving orchestrator activityID timestamp feedback).2,
      (sent = true ↔ feedback.Status = ConsentStatusType.StatusApproved)) := by
  have hres := HandleOwnerConsentFeedback_of_matching receiving orchestrator operation
    activityID timestamp feedback hop hid
  refine ⟨?_, ?_, ?_, ?_⟩
  · intro c hc hcan
    rw [hres, hc]
    refine ⟨decide (feedback.Status = ConsentStatusType.StatusApproved), ?_, ?_, ?_, ?_⟩
    · rcases hcan with h | h
      · simp [Chan.sendOrDiscard, h]
      · cases receiving <;> simp [Chan.sendOrDiscard, Chan.trySend, h]
    · simp
    · intro hdenied
      simp [hdenied]
    · rcases hcan with h | h
      · simp [Chan.sendOrDiscard, h]
      · cases receiving <;> simp [Chan.sendOrDiscard, Chan.trySend, h]
  · intro c hc hrecv hfull
    rw [hres, hc]
    obtain ⟨a1, a2, a3, a4, a5, a6, a7, a8, a9, a10, a11, a12, a13⟩ := operation
    simp only at hc
    subst hc
    simp [Chan.sendOrDiscard, Chan.trySend, hrecv, hfull]
  · rw [hres]
    cases operation.ownerConsented with
    | none => simp
    | some c =>
      by_cases hs : (Chan.sendOrDiscard c receiving
          (decide (feedback.Status = ConsentStatusType.StatusApproved))).2 = true
      · simp [hs]
      · simp [hs]
  · rw [hres]
    intro sent hsent
    cases hch : operation.ownerConsented with
    | none =>
      rw [hch] at hsent
      exact absurd hsent (List.not_mem_nil _)
    | some c =>
      rw [hch] at hsent
      by_cases hs : (Chan.sendOrDiscard c receiving
          (decide (feedback.Status = ConsentStatusType.StatusApproved))).2 = true
      · simp only [hs, if_true, List.mem_singleton] at hsent
        rw [hsent]
        simp
      · simp only [hs] at hsent
        exact absurd hsent (List.not_mem_nil _)

/-- C7, amended, at work: on the unbuffered channel of `TestHandleOwnerConsent` with the test
receiving, an approval sends `true` and a denial and an unset status send `false`; on an empty
buffered slot with nobody receiving an approval is buffered. -/
theorem HandleOwnerConsentFeedback_matching_witness :
    (HandleOwnerConsentFeedback true { operation := some unbufferedConsentOperation } "A1" 0
      { Status := ConsentStatusType.StatusApproved }).2 = [true] ∧
    (HandleOwnerConsentFeedback true { operation := some unbufferedConsentOperation } "A1" 0
      { Status := ConsentStatusType.StatusDenied }).2 = [false] ∧
    (HandleOwnerConsentFeedback true { operation := some unbufferedConsentOperation } "A1" 0
      { Status := ConsentStatusType.other "" }).2 = [false] ∧
    (HandleOwnerConsentFeedback false { operation := some sampleOperation } "A1" 0
      { Status := ConsentStatusType.StatusApproved }) =
      ({ operation := some
          { sampleOperation with ownerConsented := some { cap := 1, buf := [true] } } },
        [true]) ∧
    (∀ sent ∈
        (HandleOwnerConsentFeedback true { operation := some unbufferedConsentOperation } "A1" 0
          { Status := ConsentStatusType.StatusApproved }).2,
      (sent = true ↔
        ({ Status := ConsentStatusType.StatusApproved } : OwnerConsentFeedback).Status =
          ConsentStatusType.StatusApproved)) :=
  ⟨by decide, by decide, by decide, by decide,
   (HandleOwnerConsentFeedback_matching true { operation := some unbufferedConsentOperation }
      unbufferedConsentOperation "A1" 0 { Status := ConsentStatusType.StatusApproved } rfl
      rfl).2.2.2⟩

/-- C8: for every owner-consent feedback, approved or denied, whose activity ID differs from that
of the active operation, `HandleOwnerConsentFeedback` sends nothing on
`operation.ownerConsented` and leaves the orchestrator and its operation as they were, whether
or not a receiver is waiting on the channel. -/
theorem HandleOwnerConsentFeedback_other_activity (receiving : Bool)
    (orchestrator : updateOrchestrator)
    (operation : updateOperation) (activityID : String) (timestamp : Int)
    (feedback : OwnerConsentFeedback)
    (hop : orchestrator.operation = some operation)
    (hid : operation.activityID ≠ activityID) :
    (HandleOwnerConsentFeedback receiving orchestrator activityID timestamp feedback).2 = [] ∧
    (HandleOwnerConsentFeedback receiving orchestrator activityID timestamp feedback).1 =
      orchestrator ∧
    (HandleOwnerConsentFeedback receiving orchestrator activityID timestamp
      feedback).1.operation = some operation := by
  simp [HandleOwnerConsentFeedback, hop, hid]

/-- C8 at work: the approval of "anotherActivity" while the operation of activity "A1" is active
and the test is receiving on its unbuffered channel. -/
theorem HandleOwnerConsentFeedback_other_activity_witness :
    unbufferedConsentOperation.activityID ≠ "anotherActivity" ∧
    (HandleOwnerConsentFeedback true { operation := some unbufferedConsentOperation }
      "anotherActivity" 0 { Status := ConsentStatusType.StatusApproved }).2 = [] ∧
    (HandleOwnerConsentFeedback true { operation := some unbufferedConsentOperation }
      "anotherActivity" 0 { Status := ConsentStatusType.StatusApproved }).1 =
        { operation := some unbufferedConsentOperation } ∧
    (HandleOwnerConsentFeedback true { operation := some unbufferedConsentOperation }
      "anotherActivity" 0 { Status := ConsentStatusType.StatusApproved }).1.operation =
        some unbufferedConsentOperation :=
  ⟨by decide,
   HandleOwnerConsentFeedback_other_activity true { operation := some unbufferedConsentOperation }
     unbufferedConsentOperation "anotherActivity" 0
     { Status := ConsentStatusType.StatusApproved } rfl (by decide)⟩

/-- C9: the keys of the map that `generatePhaseChannels` returns are exactly the phases of
`orderedPhases`, Identification, Download, Update, Activation and Cleanup, each once; every phase
is mapped to an empty channel of buffer capacity 1; and `newUpdateOperation` installs this map
as `operation.phaseChannels`. -/
theorem generatePhaseChannels_keys_and_slots (order : List (String × DesiredState))
    (domainAgents : GoMap String UpdateManager) (activityID : String)
    (desiredState : DesiredState) (desiredStateCallback : Option DesiredStateFeedbackHandler)
    (operation : updateOperation)
    (hok : newUpdateOperationIn order domainAgents activityID desiredState
      desiredStateCallback = Except.ok operation) :
    GoMap.keys generatePhaseChannels =
      [phase.Identification, phase.Download, phase.Update, phase.Activation, phase.Cleanup] ∧
    (∀ p, p ∈ GoMap.keys generatePhaseChannels ↔ p ∈ orderedPhases) ∧
    (GoMap.keys generatePhaseChannels).Nodup ∧
    (∀ p ∈ orderedPhases, GoMap.lookup generatePhaseChannels p = some { cap := 1, buf := [] }) ∧
    (∀ entry ∈ generatePhaseChannels, entry.2.cap = 1 ∧ entry.2.buf = []) ∧
    operation.phaseChannels = generatePhaseChannels := by
  have hop := newUpdateOperationIn_ok_inv order domainAgents activityID desiredState
    desiredStateCallback operation hok
  subst hop
  refine ⟨by decide, ?_, by decide, by decide, by decide, rfl⟩
  intro p
  cases p <;> decide

/-- C9 at work, on the operation built from the sample registry and the sample manifest. -/
theorem generatePhaseChannels_keys_and_slots_witness :
    newUpdateOperationIn sampleDesiredState.SplitPerDomains sampleAgents "A1"
        sampleDesiredState none = Except.ok sampleConstructed ∧
    GoMap.keys sampleConstructed.phaseChannels =
      [phase.Identification, phase.Download, phase.Update, phase.Activation, phase.Cleanup] ∧
    sampleConstructed.phaseChannels = generatePhaseChannels :=
  ⟨rfl,
   (generatePhaseChannels_keys_and_slots sampleDesiredState.SplitPerDomains sampleAgents "A1"
     sampleDesiredState none sampleConstructed rfl).1,
   (generatePhaseChannels_keys_and_slots sampleDesiredState.SplitPerDomains sampleAgents "A1"
     sampleDesiredState none sampleConstructed rfl).2.2.2.2.2⟩

/-- C10: the `errChan` of every successfully constructed operation is an empty channel of buffer
capacity 1: a first value sent without a receiver is buffered, and a second one is not. -/
theorem newUpdateOperation_errChan (order : List (String × DesiredState))
    (domainAgents : GoMap String UpdateManager) (activityID : String)
    (desiredState : DesiredState) (desiredStateCallback : Option DesiredStateFeedbackHandler)
    (operation : updateOperation)
    (hok : newUpdateOperationIn order domainAgents activityID desiredState
      desiredStateCallback = Except.ok operation) :
    ∃ c,
      operation.errChan = some c ∧
      c.cap = 1 ∧
      c.buf = [] ∧
      ∀ first second,
        Chan.trySend c first = ({ cap := 1, buf := [first] }, true) ∧
        Chan.trySend (Chan.trySend c first).1 second = ({ cap := 1, buf := [first] }, false) := by
  have hop := newUpdateOperationIn_ok_inv order domainAgents activityID desiredState
    desiredStateCallback operation hok
  subst hop
  refine ⟨make 1, rfl, rfl, rfl, ?_⟩
  intro first second
  cases first <;> cases second <;> decide

/-- C10 at work, on the operation built from the sample registry and the sample manifest. -/
theorem newUpdateOperation_errChan_witness :
    newUpdateOperationIn sampleDesiredState.SplitPerDomains sampleAgents "A1"
        sampleDesiredState none = Except.ok sampleConstructed ∧
    ∃ c,
      sampleConstructed.errChan = some c ∧
      c.cap = 1 ∧
      c.buf = [] ∧
      ∀ first second,
        Chan.trySend c first = ({ cap := 1, buf := [first] }, true) ∧
        Chan.trySend (Chan.trySend c first).1 second = ({ cap := 1, buf := [first] }, false) :=
  ⟨rfl,
   newUpdateOperation_errChan sampleDesiredState.SplitPerDomains sampleAgents "A1"
     sampleDesiredState none sampleConstructed rfl⟩

/-- C12: `Start(h)` returns nil and leaves `client.handler` equal to `h` when the subscription is
acknowledged in time without error; when the subscription times out or its token reports an
error, `Start` returns an error that wraps the cause behind the text
"[<domain>] error subscribing for OwnerConsentFeedback messages: " and leaves `client.handler`
nil. -/
theorem Start_result (formatV : Duration → String) (client : ownerConsentClient)
    (h : Option OwnerConsentHandler) (token : Token) :
    (token.WaitTimeout = true → token.Error = none →
      (client.Start formatV h token).2 = none ∧
      (client.Start formatV h token).1.handler = h) ∧
    ((token.WaitTimeout = false ∨ token.Error ≠ none) →
      ∃ cause,
        (client.Start formatV h token).2 =
          some (GoError.wrapf
            ("[" ++ client.domain ++ "] error subscribing for OwnerConsentFeedback messages: ")
            cause) ∧
        ((client.Start formatV h token).2.map GoError.Error =
          some ("[" ++ client.domain ++
            "] error subscribing for OwnerConsentFeedback messages: " ++ cause.Error)) ∧
        (token.WaitTimeout = true → token.Error = some cause) ∧
        (client.Start formatV h token).1.handler = none) := by
  constructor
  · intro hwait herr
    simp [ownerConsentClient.Start, ownerConsentClient.subscribe, hwait, herr]
  · intro hfail
    cases hwait : token.WaitTimeout with
    | false =>
      refine ⟨GoError.errorf
        ("cannot subscribe for topic \'" ++ client.topicOwnerConsentFeedback ++ "\' in \'" ++
          formatV client.SubscribeTimeout ++ "\'"), ?_, ?_, ?_, ?_⟩ <;>
        simp [ownerConsentClient.Start, ownerConsentClient.subscribe,
          ownerConsentClient.Domain, hwait, GoError.Error]
    | true =>
      cases herr : token.Error with
      | none =>
        rcases hfail with hf | hf
        · rw [hwait] at hf
          exact Bool.noConfusion hf
        · exact absurd herr hf
      | some cause =>
        refine ⟨cause, ?_, ?_, ?_, ?_⟩ <;>
          simp [ownerConsentClient.Start, ownerConsentClient.subscribe,
            ownerConsentClient.Domain, hwait, herr, GoError.Error]

/-- C12 at work on the sample client: an acknowledged subscription, one that times out and one
that the broker refuses. -/
theorem Start_result_witness :
    sampleClient.Start sampleFormatV (some { id := 1 }) { WaitTimeout := true, Error := none } =
      ({ sampleClient with handler := some { id := 1 } }, none) ∧
    (sampleClient.Start sampleFormatV (some { id := 1 })
      { WaitTimeout := false, Error := none }).1.handler = none ∧
    (sampleClient.Start sampleFormatV (some { id := 1 })
      { WaitTimeout := true, Error := some (GoError.errorf "not connected") }).2.map
        GoError.Error =
      some "[device] error subscribing for OwnerConsentFeedback messages: not connected" ∧
    ∃ cause,
      (sampleClient.Start sampleFormatV (some { id := 1 })
        { WaitTimeout := false, Error := none }).2 =
        some (GoError.wrapf
          ("[" ++ sampleClient.domain ++
            "] error subscribing for OwnerConsentFeedback messages: ") cause) :=
  ⟨by decide, by decide, by decide,
   ((Start_result sampleFormatV sampleClient (some { id := 1 })
      { WaitTimeout := false, Error := none }).2 (Or.inl rfl)).imp (fun _ hc => hc.1)⟩

/-- C13: `Stop` returns nil and sets `client.handler` to nil when the unsubscription is
acknowledged in time without error; when the unsubscription times out or its token reports an
error, `Stop` returns an error whose text starts with
"[<domain>] error unsubscribing for OwnerConsentFeedback messages: ", wrapping the cause, and
leaves `client.handler` as it was. -/
theorem Stop_result (formatV : Duration → String) (client : ownerConsentClient)
    (token : Token) :
    (token.WaitTimeout = true → token.Error = none →
      (client.Stop formatV token).2 = none ∧
      (client.Stop formatV token).1.handler = none) ∧
    ((token.WaitTimeout = false ∨ token.Error ≠ none) →
      ∃ cause,
        (client.Stop formatV token).2 =
          some (GoError.wrapf
            ("[" ++ client.domain ++ "] error unsubscribing for OwnerConsentFeedback messages: ")
            cause) ∧
        ((client.Stop formatV token).2.map GoError.Error =
          some ("[" ++ client.domain ++
            "] error unsubscribing for OwnerConsentFeedback messages: " ++ cause.Error)) ∧
        (token.WaitTimeout = true → token.Error = some cause) ∧
        (client.Stop formatV token).1.handler = client.handler ∧
        (client.Stop formatV token).1 = client) := by
  constructor
  · intro hwait herr
    simp [ownerConsentClient.Stop, ownerConsentClient.unsubscribe, hwait, herr]
  · intro hfail
    cases hwait : token.WaitTimeout with
    | false =>
      refine ⟨GoError.errorf
        ("cannot unsubscribe from topic \'" ++ client.topicOwnerConsentFeedback ++ "\' in \'" ++
          formatV client.UnsubscribeTimeout ++ "\'"), ?_, ?_, ?_, ?_, ?_⟩ <;>
        simp [ownerConsentClient.Stop, ownerConsentClient.unsubscribe,
          ownerConsentClient.Domain, hwait, GoError.Error]
    | true =>
      cases herr : token.Error with
      | none =>
        rcases hfail with hf | hf
        · rw [hwait] at hf
          exact Bool.noConfusion hf
        · exact absurd herr hf
      | some cause =>
        refine ⟨cause, ?_, ?_, ?_, ?_, ?_⟩ <;>
          simp [ownerConsentClient.Stop, ownerConsentClient.unsubscribe,
            ownerConsentClient.Domain, hwait, herr, GoError.Error]

/-- C13 at work on the sample client with a handler installed: an acknowledged unsubscription
and one that times out. -/
theorem Stop_result_witness :
    ({ sampleClient with handler := some { id := 1 } }.Stop sampleFormatV
      { WaitTimeout := true, Error := none }) = (sampleClient, none) ∧
    ({ sampleClient with handler := some { id := 1 } }.Stop sampleFormatV
      { WaitTimeout := false, Error := none }).1.handler = some { id := 1 } ∧
    ∃ cause,
      ({ sampleClient with handler := some { id := 1 } }.Stop sampleFormatV
        { WaitTimeout := false, Error := none }).2 =
        some (GoError.wrapf
          ("[" ++ ({ sampleClient with handler := some { id := 1 } } : ownerConsentClient).domain
            ++ "] error unsubscribing for OwnerConsentFeedback messages: ") cause) :=
  ⟨by decide, by decide,
   ((Stop_result sampleFormatV { sampleClient with handler := some { id := 1 } }
      { WaitTimeout := false, Error := none }).2 (Or.inl rfl)).imp (fun _ hc => hc.1)⟩

/-- C15: with a handler installed, `handleMessage` calls `HandleOwnerConsentFeedback` on it
exactly once, with the activity ID, the timestamp and the feedback decoded from the payload,
when the topic of the message is `client.topicOwnerConsentFeedback` and the payload parses; for
any other topic and for a payload that does not parse it does not call the handler. -/
theorem handleMessage_calls
    (FromEnvelope : List Nat → Except GoError (Envelope × OwnerConsentFeedback))
    (client : ownerConsentClient) (message : Message) (handler : OwnerConsentHandler)
    (hh : client.handler = some handler) :
    ∃ calls,
      client.handleMessage FromEnvelope message = some calls ∧
      (∀ envelope ownerConsent,
        message.Topic = client.topicOwnerConsentFeedback →
        FromEnvelope message.Payload = Except.ok (envelope, ownerConsent) →
        calls =
          [{ handler := handler
             activityID := envelope.ActivityID
             timestamp := envelope.Timestamp
             feedback := ownerConsent }]) ∧
      (message.Topic ≠ client.topicOwnerConsentFeedback → calls = []) ∧
      (∀ err, FromEnvelope message.Payload = Except.error err → calls = []) ∧
      (calls ≠ [] ↔
        (message.Topic = client.topicOwnerConsentFeedback ∧
          ∃ parsed, FromEnvelope message.Payload = Except.ok parsed)) := by
  by_cases htopic : message.Topic = client.topicOwnerConsentFeedback
  · cases hparse : FromEnvelope message.Payload with
    | error err =>
      refine ⟨[], ?_, ?_, ?_, ?_, ?_⟩
      · simp [ownerConsentClient.handleMessage, htopic, hparse]
      · intro envelope ownerConsent _ hc
        exact Except.noConfusion hc
      · intro _
        rfl
      · intro _ _
        rfl
      · simp
    | ok parsed =>
      obtain ⟨envelope, ownerConsent⟩ := parsed
      refine ⟨[{ handler := handler
                 activityID := envelope.ActivityID
                 timestamp := envelope.Timestamp
                 feedback := ownerConsent }], ?_, ?_, ?_, ?_, ?_⟩
      · simp [ownerConsentClient.handleMessage, htopic, hparse, hh]
      · intro envelope' ownerConsent' _ hc
        have hpair := Except.ok.inj hc
        have h1 : envelope = envelope' := congrArg Prod.fst hpair
        have h2 : ownerConsent = ownerConsent' := congrArg Prod.snd hpair
        rw [h1, h2]
      · intro hne
        exact absurd htopic hne
      · intro err hc
        exact Except.noConfusion hc
      · simp [htopic]
  · refine ⟨[], ?_, ?_, ?_, ?_, ?_⟩
    · simp [ownerConsentClient.handleMessage, htopic]
    · intro envelope ownerConsent hc _
      exact absurd hc htopic
    · intro _
      rfl
    · intro _ _
      rfl
    · simp [htopic]

/-- C15 at work on the sample client with a handler: an approval on the feedback topic reaches
the handler once, the same payload on another topic and a payload that does not parse do
not. -/
theorem handleMessage_calls_witness :
    ({ sampleClient with handler := some { id := 1 } }.handleMessage sampleFromEnvelope
      { Topic := "deviceupdate/ownerconsentfeedback", Payload := [1] }) =
      some [{ handler := { id := 1 }
              activityID := "A1"
              timestamp := 42
              feedback := { Status := ConsentStatusType.StatusApproved } }] ∧
    ({ sampleClient with handler := some { id := 1 } }.handleMessage sampleFromEnvelope
      { Topic := "deviceupdate/desiredstate", Payload := [1] }) = some [] ∧
    ({ sampleClient with handler := some { id := 1 } }.handleMessage sampleFromEnvelope
      { Topic := "deviceupdate/ownerconsentfeedback", Payload := [9, 9] }) = some [] ∧
    ∃ calls,
      ({ sampleClient with handler := some { id := 1 } }.handleMessage sampleFromEnvelope
        { Topic := "deviceupdate/ownerconsentfeedback", Payload := [1] }) = some calls :=
  ⟨by decide, by decide, by decide,
   (handleMessage_calls sampleFromEnvelope { sampleClient with handler := some { id := 1 } }
      { Topic := "deviceupdate/ownerconsentfeedback", Payload := [1] } { id := 1 } rfl).imp
      (fun _ hc => hc.1)⟩

/-- C16: right after `newUpdateOperation` succeeds, `rebootRequired` is false and `errMsg` is the
empty string; no action is recorded yet, and the operation satisfies "`rebootRequired` holds only
if some recorded action has the action type reboot". -/
theorem newUpdateOperation_no_reboot_no_error (order : List (String × DesiredState))
    (domainAgents : GoMap String UpdateManager) (activityID : String)
    (desiredState : DesiredState) (desiredStateCallback : Option DesiredStateFeedbackHandler)
    (operation : updateOperation)
    (hok : newUpdateOperationIn order domainAgents activityID desiredState
      desiredStateCallback = Except.ok operation) :
    operation.rebootRequired = false ∧
    operation.errMsg = "" ∧
    (∀ perDomain ∈ operation.actions, ∀ action ∈ perDomain.2,
      action.2.actionType ≠ ActionType.reboot) ∧
    (operation.rebootRequired = true →
      ∃ perDomain ∈ operation.actions, ∃ action ∈ perDomain.2,
        action.2.actionType = ActionType.reboot) := by
  have hop := newUpdateOperationIn_ok_inv order domainAgents activityID desiredState
    desiredStateCallback operation hok
  subst hop
  refine ⟨rfl, rfl, ?_, ?_⟩
  · intro perDomain hmem
    exact absurd hmem (List.not_mem_nil _)
  · intro hreboot
    exact Bool.noConfusion hreboot

/-- C16 at work, on the operation built from the sample registry and the sample manifest. -/
theorem newUpdateOperation_no_reboot_no_error_witness :
    newUpdateOperationIn sampleDesiredState.SplitPerDomains sampleAgents "A1"
        sampleDesiredState none = Except.ok sampleConstructed ∧
    sampleConstructed.rebootRequired = false ∧
    sampleConstructed.errMsg = "" :=
  ⟨rfl,
   (newUpdateOperation_no_reboot_no_error sampleDesiredState.SplitPerDomains sampleAgents "A1"
     sampleDesiredState none sampleConstructed rfl).1,
   (newUpdateOperation_no_reboot_no_error sampleDesiredState.SplitPerDomains sampleAgents "A1"
     sampleDesiredState none sampleConstructed rfl).2.1⟩

/-- C18: for every operation and every status `s`, also one that ranks below the current status,
after `updateStatus(s)` the status is `s` and `activityID`, `delayedStatus`, `domains`,
`actions`, `errMsg` and `rebootRequired` are what they were, as is every other field; calling
`updateStatus(s)` twice in a row gives the same operation as calling it once. -/
theorem updateStatus_frame_idempotent (operation : updateOperation) (s : StatusType) :
    (operation.updateStatus s).status = s ∧
    (operation.updateStatus s).activityID = operation.activityID ∧
    (operation.updateStatus s).delayedStatus = operation.delayedStatus ∧
    (operation.updateStatus s).domains = operation.domains ∧
    (operation.updateStatus s).actions = operation.actions ∧
    (operation.updateStatus s).errMsg = operation.errMsg ∧
    (operation.updateStatus s).rebootRequired = operation.rebootRequired ∧
    operation.updateStatus s = { operation with status := s } ∧
    (operation.updateStatus s).updateStatus s = operation.updateStatus s :=
  ⟨rfl, rfl, rfl, rfl, rfl, rfl, rfl, rfl, rfl⟩

/-- C19: as far as participation goes, the outcome of `newUpdateOperation` does not depend on the
order in which the split is ranged over: for two orders of the same split and the same
registry the construction succeeds in both or fails in both, and on success the two `domains`
maps have the same value at every domain, and the same entries. -/
theorem newUpdateOperation_order_independent (first second : List (String × DesiredState))
    (domainAgents : GoMap String UpdateManager) (activityID : String)
    (desiredState : DesiredState) (desiredStateCallback : Option DesiredStateFeedbackHandler)
    (hfirst : first.Perm desiredState.SplitPerDomains)
    (hsecond : second.Perm desiredState.SplitPerDomains) :
    ((∃ operation, newUpdateOperationIn first domainAgents activityID desiredState
        desiredStateCallback = Except.ok operation) ↔
      (∃ operation, newUpdateOperationIn second domainAgents activityID desiredState
        desiredStateCallback = Except.ok operation)) ∧
    ((∃ err, newUpdateOperationIn first domainAgents activityID desiredState
        desiredStateCallback = Except.error err) ↔
      (∃ err, newUpdateOperationIn second domainAgents activityID desiredState
        desiredStateCallback = Except.error err)) ∧
    ∀ operation1 operation2,
      newUpdateOperationIn first domainAgents activityID desiredState
        desiredStateCallback = Except.ok operation1 →
      newUpdateOperationIn second domainAgents activityID desiredState
        desiredStateCallback = Except.ok operation2 →
      (∀ d, GoMap.lookup operation1.domains d = GoMap.lookup operation2.domains d) ∧
      operation1.domains.Perm operation2.domains := by
  have hkeys : ∀ d, d ∈ GoMap.keys first ↔ d ∈ GoMap.keys second := fun d =>
    (keys_perm hfirst d).trans (keys_perm hsecond d).symm
  by_cases hsup : ∃ d ∈ GoMap.keys first, d ∈ GoMap.keys domainAgents
  · have hsup2 : ∃ d ∈ GoMap.keys second, d ∈ GoMap.keys domainAgents := by
      obtain ⟨d, hd, hreg⟩ := hsup
      exact ⟨d, (hkeys d).1 hd, hreg⟩
    have h1 := newUpdateOperationIn_ok first domainAgents activityID desiredState
      desiredStateCallback hsup
    have h2 := newUpdateOperationIn_ok second domainAgents activityID desiredState
      desiredStateCallback hsup2
    refine ⟨⟨fun _ => ⟨_, h2⟩, fun _ => ⟨_, h1⟩⟩, ?_, ?_⟩
    · constructor
      · rintro ⟨err, herr⟩
        rw [h1] at herr
        exact Except.noConfusion herr
      · rintro ⟨err, herr⟩
        rw [h2] at herr
        exact Except.noConfusion herr
    · intro operation1 operation2 hok1 hok2
      rw [h1] at hok1
      rw [h2] at hok2
      have e1 := Except.ok.inj hok1
      have e2 := Except.ok.inj hok2
      subst e1
      subst e2
      constructor
      · intro d
        by_cases hd : d ∈ GoMap.keys first ∧ d ∈ GoMap.keys domainAgents
        · have hd2 : d ∈ GoMap.keys second ∧ d ∈ GoMap.keys domainAgents :=
            ⟨(hkeys d).1 hd.1, hd.2⟩
          show GoMap.lookup (first.foldl (rangeBody domainAgents) ([], [])).2 d =
            GoMap.lookup (second.foldl (rangeBody domainAgents) ([], [])).2 d
          rw [(rangeBody_fold_snd_lookup domainAgents first d).1 hd,
            (rangeBody_fold_snd_lookup domainAgents second d).1 hd2]
        · have hd2 : ¬ (d ∈ GoMap.keys second ∧ d ∈ GoMap.keys domainAgents) :=
            fun hc => hd ⟨(hkeys d).2 hc.1, hc.2⟩
          show GoMap.lookup (first.foldl (rangeBody domainAgents) ([], [])).2 d =
            GoMap.lookup (second.foldl (rangeBody domainAgents) ([], [])).2 d
          rw [(rangeBody_fold_snd_lookup domainAgents first d).2 hd,
            (rangeBody_fold_snd_lookup domainAgents second d).2 hd2]
      · show ((first.foldl (rangeBody domainAgents) ([], [])).2).Perm
          (second.foldl (rangeBody domainAgents) ([], [])).2
        apply perm_of_values _ _ StatusIdentifying
          (rangeBody_fold_snd_values domainAgents first ([], []) (by simp))
          (rangeBody_fold_snd_values domainAgents second ([], []) (by simp))
          (rangeBody_fold_snd_nodup domainAgents first ([], []) (by simp [GoMap.keys]))
          (rangeBody_fold_snd_nodup domainAgents second ([], []) (by simp [GoMap.keys]))
        intro d
        rw [rangeBody_fold_snd_keys domainAgents first ([], []) d,
          rangeBody_fold_snd_keys domainAgents second ([], []) d, hkeys d]
  · have hno1 : ∀ d ∈ GoMap.keys first, d ∉ GoMap.keys domainAgents := by
      intro d hd hreg
      exact hsup ⟨d, hd, hreg⟩
    have hno2 : ∀ d ∈ GoMap.keys second, d ∉ GoMap.keys domainAgents := by
      intro d hd hreg
      exact hsup ⟨d, (hkeys d).2 hd, hreg⟩
    have h1 := newUpdateOperationIn_error first domainAgents activityID desiredState
      desiredStateCallback hno1
    have h2 := newUpdateOperationIn_error second domainAgents activityID desiredState
      desiredStateCallback hno2
    refine ⟨?_, ⟨fun _ => ⟨_, h2⟩, fun _ => ⟨_, h1⟩⟩, ?_⟩
    · constructor
      · rintro ⟨operation, hok⟩
        rw [h1] at hok
        exact Except.noConfusion hok
      · rintro ⟨operation, hok⟩
        rw [h2] at hok
        exact Except.noConfusion hok
    · intro operation1 operation2 hok1
      rw [h1] at hok1
      exact Except.noConfusion hok1

/-- C19 at work: the sample split ranged over as it is and in reverse, with the registry whose
two domains share an agent: both constructions succeed and have the same `domains` entries, in
a different order. -/
theorem newUpdateOperation_order_independent_witness :
    (sampleDesiredState.SplitPerDomains).Perm sampleDesiredState.SplitPerDomains ∧
    (sampleDesiredState.SplitPerDomains.reverse).Perm sampleDesiredState.SplitPerDomains ∧
    ∀ operation1 operation2,
      newUpdateOperationIn sampleDesiredState.SplitPerDomains sharedAgents "A1"
        sampleDesiredState none = Except.ok operation1 →
      newUpdateOperationIn sampleDesiredState.SplitPerDomains.reverse sharedAgents "A1"
        sampleDesiredState none = Except.ok operation2 →
      (∀ d, GoMap.lookup operation1.domains d = GoMap.lookup operation2.domains d) ∧
      operation1.domains.Perm operation2.domains :=
  ⟨List.Perm.refl _, List.reverse_perm _,
   (newUpdateOperation_order_independent sampleDesiredState.SplitPerDomains
      sampleDesiredState.SplitPerDomains.reverse sharedAgents "A1" sampleDesiredState none
      (List.Perm.refl _) (List.reverse_perm _)).2.2⟩

/-- C17: after a successful construction `statesPerDomain` has one entry for every agent that the
registry assigns to a participant domain, and no other; the value of each entry is the
`SplitPerDomains()` sub-manifest of a participant domain registered to that agent. When the
registry gives the participant domains pairwise distinct agents, `statesPerDomain[registry[d]]`
is the sub-manifest of `d` for every participant `d`, and there are as many entries as in
`operation.domains`; in general there is at least one entry and at most that many. -/
theorem newUpdateOperation_statesPerDomain (order : List (String × DesiredState))
    (domainAgents : GoMap String UpdateManager) (activityID : String)
    (desiredState : DesiredState) (desiredStateCallback : Option DesiredStateFeedbackHandler)
    (operation : updateOperation)
    (horder : order.Perm desiredState.SplitPerDomains)
    (hok : newUpdateOperationIn order domainAgents activityID desiredState
      desiredStateCallback = Except.ok operation) :
    (GoMap.keys operation.statesPerDomain).Nodup ∧
    (∀ a, a ∈ GoMap.keys operation.statesPerDomain ↔
      ∃ d ∈ GoMap.keys desiredState.SplitPerDomains, GoMap.lookup domainAgents d = some a) ∧
    (∀ entry ∈ operation.statesPerDomain,
      ∃ d, GoMap.lookup desiredState.SplitPerDomains d = some entry.2 ∧
        GoMap.lookup domainAgents d = some entry.1) ∧
    ((∀ d d' a, d ∈ GoMap.keys desiredState.SplitPerDomains →
        d' ∈ GoMap.keys desiredState.SplitPerDomains →
        GoMap.lookup domainAgents d = some a → GoMap.lookup domainAgents d' = some a → d = d') →
      (∀ d a, d ∈ GoMap.keys desiredState.SplitPerDomains →
        GoMap.lookup domainAgents d = some a →
        GoMap.lookup operation.statesPerDomain a =
          GoMap.lookup desiredState.SplitPerDomains d) ∧
      GoMap.len operation.statesPerDomain = GoMap.len operation.domains) ∧
    1 ≤ GoMap.len operation.statesPerDomain ∧
    GoMap.len operation.statesPerDomain ≤ GoMap.len operation.domains := by
  have hsplitnd := SplitPerDomains_keys_nodup desiredState
  have hordnd : (GoMap.keys order).Nodup :=
    ((horder.map Prod.fst).nodup_iff).2 hsplitnd
  have hne := (newUpdateOperationIn_ok_supported order domainAgents activityID desiredState
    desiredStateCallback operation hok).2
  have hop := newUpdateOperationIn_ok_inv order domainAgents activityID desiredState
    desiredStateCallback operation hok
  subst hop
  have hlen2 := rangeBody_fold_snd_length domainAgents order ([], []) hordnd
    (by simp [GoMap.keys])
  have hlen1 := rangeBody_fold_fst_length_le domainAgents order ([], [])
  refine ⟨?_, ?_, ?_, ?_, ?_, ?_⟩
  · exact rangeBody_fold_fst_nodup domainAgents order ([], []) (by simp [GoMap.keys])
  · intro a
    show a ∈ GoMap.keys (order.foldl (rangeBody domainAgents) ([], [])).1 ↔ _
    rw [rangeBody_fold_fst_keys domainAgents order ([], []) a]
    constructor
    · rintro (h | ⟨e, he, hea⟩)
      · simp [GoMap.keys] at h
      · exact ⟨e.1, (keys_perm horder e.1).1 (List.mem_map_of_mem Prod.fst he), hea⟩
    · rintro ⟨d, hd, hda⟩
      obtain ⟨e, he, hed⟩ := List.mem_map.1 ((keys_perm horder d).2 hd)
      exact Or.inr ⟨e, he, by rw [hed]; exact hda⟩
  · intro entry hentry
    rcases rangeBody_fold_fst_entries domainAgents order ([], []) entry hentry with
      h | ⟨e, he, hea, hes⟩
    · exact absurd h (List.not_mem_nil _)
    · refine ⟨e.1, ?_, hea⟩
      rw [← hes]
      exact GoMap.lookup_of_mem_nodup _ _ _ hsplitnd (horder.mem_iff.1 he)
  · intro hinj
    have hinj' : ∀ d d' a, d ∈ GoMap.keys order → d' ∈ GoMap.keys order →
        GoMap.lookup domainAgents d = some a → GoMap.lookup domainAgents d' = some a →
        d = d' := fun d d' a hd hd' =>
      hinj d d' a ((keys_perm horder d).1 hd) ((keys_perm horder d').1 hd')
    constructor
    · intro d a hd hda
      obtain ⟨e, he, hed⟩ := List.mem_map.1 ((keys_perm horder d).2 hd)
      have hsub : GoMap.lookup desiredState.SplitPerDomains d = some e.2 := by
        rw [← hed]
        exact GoMap.lookup_of_mem_nodup _ _ _ hsplitnd (horder.mem_iff.1 he)
      rw [hsub]
      apply rangeBody_fold_fst_lookup domainAgents order ([], []) a e.2
      · exact ⟨e, he, by rw [hed]; exact hda⟩
      · intro x hx hxa
        have hxd : x.1 = d :=
          hinj' x.1 d a (List.mem_map_of_mem Prod.fst hx) ((keys_perm horder d).2 hd) hxa hda
        have hx2 : GoMap.lookup desiredState.SplitPerDomains x.1 = some x.2 :=
          GoMap.lookup_of_mem_nodup _ _ _ hsplitnd (horder.mem_iff.1 hx)
        rw [hxd, hsub] at hx2
        exact (Option.some.inj hx2).symm
    · have hlen := rangeBody_fold_fst_length domainAgents order ([], [])
        (rangeAgents_nodup domainAgents order hordnd hinj') (by simp [GoMap.keys])
      show (order.foldl (rangeBody domainAgents) ([], [])).1.length =
        (order.foldl (rangeBody domainAgents) ([], [])).2.length
      rw [hlen, hlen2]
      rfl
  · show 1 ≤ (order.foldl (rangeBody domainAgents) ([], [])).1.length
    exact Nat.succ_le_of_lt (List.length_pos.2 hne)
  · show (order.foldl (rangeBody domainAgents) ([], [])).1.length ≤
      (order.foldl (rangeBody domainAgents) ([], [])).2.length
    rw [hlen2]
    simpa using hlen1

/-- C17 at work: with an agent of its own for each of the two sample domains `statesPerDomain`
has two entries, as `domains` has; with one agent shared by the two domains it has one entry
while `domains` has two. -/
theorem newUpdateOperation_statesPerDomain_witness :
    (∃ operation,
      newUpdateOperationIn sampleDesiredState.SplitPerDomains distinctAgents "A1"
        sampleDesiredState none = Except.ok operation ∧
      GoMap.len operation.statesPerDomain = 2 ∧ GoMap.len operation.domains = 2 ∧
      GoMap.lookup operation.statesPerDomain { id := 3 } =
        GoMap.lookup sampleDesiredState.SplitPerDomains "firmware") ∧
    (∃ operation,
      newUpdateOperationIn sampleDesiredState.SplitPerDomains sharedAgents "A1"
        sampleDesiredState none = Except.ok operation ∧
      GoMap.len operation.statesPerDomain = 1 ∧ GoMap.len operation.domains = 2 ∧
      (GoMap.keys operation.statesPerDomain).Nodup ∧
      1 ≤ GoMap.len operation.statesPerDomain ∧
      GoMap.len operation.statesPerDomain ≤ GoMap.len operation.domains) :=
  ⟨⟨_, rfl, rfl, rfl, rfl⟩,
   ⟨_, rfl, rfl, rfl,
    (newUpdateOperation_statesPerDomain sampleDesiredState.SplitPerDomains sharedAgents "A1"
      sampleDesiredState none _ (List.Perm.refl _) rfl).1,
    (newUpdateOperation_statesPerDomain sampleDesiredState.SplitPerDomains sharedAgents "A1"
      sampleDesiredState none _ (List.Perm.refl _) rfl).2.2.2.2⟩⟩

end Kanto
